import Mathlib

/-!
# Avalon interpreter: literal expressions and the builtin cast dispatchers

A shallow embedding of

* `src/representer/ast/expr/literal_expression.{hpp,cpp}`: the literal AST node, and
* `src/interpreter/builtins/lang/avalon_cast.cpp`: `avl_cast`, `avl_string_cast`,
  `avl_float_cast`.

C++ exceptions are the `Except.error` side of `Except exception`.  Code the two files
use but do not define (the token, the type instance and its strong comparison, the
builtin type registry, the per-type handlers, the C and Boost library calls) is either
a parameter of the embedded function or a model that says so in its doc comment.
-/

namespace avalon

/-! ## Externals of the two source files -/

/-- Modelled from the spec: the lexer token ("source token (position/text for
diagnostics)"); `lexer/token.hpp` is not among the sources. -/
structure token where
  lexeme : String
  line : Nat
  column : Nat
deriving DecidableEq, Repr

/-- Modelled from the spec: the type instance, "a structural type descriptor" with a
name, a module and type arguments; `representer/ast/decl/type.hpp` is not among the
sources. -/
inductive type_instance where
  | mk (name : String) (module : String) (params : List type_instance)
deriving Repr

/-- The name accessor of a type instance. -/
def type_instance.get_name : type_instance → String
  | .mk name _ _ => name

mutual
/-- Modelled from the spec: strong comparison is "exact structural equality": same
name, same module, same type arguments, recursively. -/
def type_instance_strong_compare : type_instance → type_instance → Bool
  | .mk n1 m1 p1, .mk n2 m2 p2 =>
    decide (n1 = n2) && decide (m1 = m2) && type_instance_params_compare p1 p2
/-- Pointwise strong comparison of two type argument lists. -/
def type_instance_params_compare : List type_instance → List type_instance → Bool
  | [], [] => true
  | a :: as, b :: bs => type_instance_strong_compare a b && type_instance_params_compare as bs
  | _, _ => false
end

/-- Modelled from the spec: the default-constructed type instance is the unresolved
placeholder, whose name is "*". -/
def star_instance : type_instance := .mk "*" "*" []

/-- Modelled from the spec: the builtin type registry.  `avalon_bool`, `avalon_int`,
`avalon_dec` and `avalon_float` (`representer/builtins/lang/`) are not among the
sources; each `get_type_instance()` yields the canonical instance of its type. -/
structure registry where
  bool_instance : type_instance
  int_instance : type_instance
  dec_instance : type_instance
  float_instance : type_instance

/-- Modelled from the spec: the canonical, parameter-free instances of the builtin
types, living in the builtin module. -/
def builtin_registry : registry where
  bool_instance := .mk "bool" "*" []
  int_instance := .mk "int" "*" []
  dec_instance := .mk "dec" "*" []
  float_instance := .mk "float" "*" []

/-- The exceptions thrown by the embedded code: `value_error` by the literal
accessors, `invalid_call` by the dispatchers, `runtime_error` by the Boost decimal
constructor on text it cannot parse. -/
inductive exception where
  | value_error (msg : String)
  | invalid_call (msg : String)
  | runtime_error (msg : String)
deriving DecidableEq, Repr

/-! ## Library calls made by `literal_expression.cpp` -/

/-- The characters `std::string::c_str()` exposes to a C function: those before the
first NUL. -/
def c_str (s : String) : List Char :=
  s.data.takeWhile (fun c => c != '\x00')

/-- The C `isspace` in the "C" locale. -/
def isspace (c : Char) : Bool :=
  c == ' ' || c == '\t' || c == '\n' || c == '\x0b' || c == '\x0c' || c == '\r'

/-- The value of a decimal digit character. -/
def digit_value (c : Char) : Nat := c.toNat - '0'.toNat

/-- Largest `long long`. -/
def LLONG_MAX : Int := 2 ^ 63 - 1

/-- Smallest `long long`. -/
def LLONG_MIN : Int := -(2 ^ 63)

/-- The digit loop of `strtoll` in base 10: consume the longest run of decimal digits,
accumulating their value. -/
def strtoll_digits : List Char → Nat → Nat
  | [], acc => acc
  | c :: cs, acc => if c.isDigit then strtoll_digits cs (acc * 10 + digit_value c) else acc

/-- Model of the C library's `strtoll(nptr, &end, 10)`: skip leading white space, read
an optional sign, convert the longest run of digits, and clamp a value outside the
range of `long long` to `LLONG_MIN` or `LLONG_MAX`.  Without digits the result is 0. -/
def strtoll (nptr : List Char) : Int :=
  let s := nptr.dropWhile isspace
  let mag (r : List Char) : Int := (strtoll_digits r 0 : Nat)
  match s with
  | '-' :: r => if -(mag r) < LLONG_MIN then LLONG_MIN else -(mag r)
  | '+' :: r => if LLONG_MAX < mag r then LLONG_MAX else mag r
  | r => if LLONG_MAX < mag r then LLONG_MAX else mag r

/-! ### Boost.Multiprecision `cpp_dec_float_100`

`boost::multiprecision::cpp_dec_float_100` is `cpp_dec_float<100>`: a sign, a decimal
exponent and a fixed array of limbs, each limb holding eight decimal digits.  The
model follows the string constructor (`rd_string`) of the Boost backend step by step,
on the list of characters of the text. -/

/-- Template argument `Digits10` of `cpp_dec_float_100`. -/
def cpp_dec_float_digits10 : Nat := 100

/-- Decimal digits held by one limb. -/
def cpp_dec_float_elem_digits10 : Nat := 8

/-- Limbs needed for `Digits10` digits. -/
def cpp_dec_float_elem_number_request : Nat :=
  cpp_dec_float_digits10 / cpp_dec_float_elem_digits10 +
    (if cpp_dec_float_digits10 % cpp_dec_float_elem_digits10 ≠ 0 then 1 else 0)

/-- Limbs of the array: the requested ones (at least two) and three guard limbs. -/
def cpp_dec_float_elem_number : Nat :=
  (if cpp_dec_float_elem_number_request < 2 then 2 else cpp_dec_float_elem_number_request) + 3

/-- Largest value of `boost::int32_t`, the default `ExponentType` of `cpp_dec_float`,
which `cpp_dec_float_100` uses. -/
def INT32_MAX : Int := 2 ^ 31 - 1

/-- Smallest value of `boost::int32_t`. -/
def INT32_MIN : Int := -(2 ^ 31)

/-- Largest decimal exponent, `1 << (31 - 5)` for the 32-bit exponent type. -/
def cpp_dec_float_max_exp10 : Int := 2 ^ 26

/-- Smallest decimal exponent, the negative of the largest. -/
def cpp_dec_float_min_exp10 : Int := -(2 ^ 26)

/-- The class of a `cpp_dec_float` value. -/
inductive fpclass_type where
  | cpp_dec_float_finite
  | cpp_dec_float_inf
  | cpp_dec_float_NaN
deriving DecidableEq, Repr

/-- The members of `cpp_dec_float<100>`: limbs most significant first, the decimal
exponent of the first limb, the sign and the class. -/
structure cpp_dec_float_100 where
  data : List Nat
  exp : Int
  neg : Bool
  fpclass : fpclass_type
deriving DecidableEq, Repr

namespace cpp_dec_float_100

/-- The value `zero()`. -/
def zero : cpp_dec_float_100 :=
  ⟨List.replicate cpp_dec_float_elem_number 0, 0, false, .cpp_dec_float_finite⟩

/-- The value `inf()`, negated when `neg` is set. -/
def inf (neg : Bool) : cpp_dec_float_100 :=
  ⟨List.replicate cpp_dec_float_elem_number 0, 0, neg, .cpp_dec_float_inf⟩

/-- The value `nan()`. -/
def nan : cpp_dec_float_100 :=
  ⟨List.replicate cpp_dec_float_elem_number 0, 0, false, .cpp_dec_float_NaN⟩

/-- The magnitude held by the limbs: limb `i` counts units of `10 ^ (exp - 8 * i)`. -/
def limbs_value : List Nat → Int → ℚ
  | [], _ => 0
  | d :: ds, e => (d : ℚ) * (10 : ℚ) ^ e + limbs_value ds (e - 8)

/-- The rational number a finite value denotes; none for an infinity or a NaN. -/
def to_rat (x : cpp_dec_float_100) : Option ℚ :=
  match x.fpclass with
  | .cpp_dec_float_finite =>
    some ((if x.neg then -1 else 1) * limbs_value x.data x.exp)
  | _ => none

end cpp_dec_float_100

/-- Index of the first occurrence of a character, as `std::string::find`; none is
`npos`. -/
def str_find (c : Char) : List Char → Option Nat
  | [] => none
  | x :: xs => if x = c then some 0 else (str_find c xs).map (· + 1)

/-- Removal of `n` characters at `pos`, as `std::string::erase(pos, n)`. -/
def str_erase (s : List Char) (pos n : Nat) : List Char :=
  s.take pos ++ s.drop (pos + n)

/-- Insertion of `t` at `pos`, as `std::string::insert(pos, t)`. -/
def str_insert (s : List Char) (pos : Nat) (t : List Char) : List Char :=
  s.take pos ++ t ++ s.drop pos

/-- The value of a run of decimal digits. -/
def digits_value (s : List Char) : Nat :=
  s.foldl (fun acc c => acc * 10 + digit_value c) 0

/-- Model of `boost::lexical_cast<boost::uint32_t>` on a piece of the text: an optional
sign and then nothing but digits, the value fitting 32 bits; a minus sign negates
modulo `2 ^ 32`.  None is `bad_lexical_cast`. -/
def lexical_cast_uint32 (s : List Char) : Option Nat :=
  let digits (r : List Char) : Option Nat :=
    if r ≠ [] ∧ r.all Char.isDigit = true ∧ digits_value r < 2 ^ 32 then
      some (digits_value r) else none
  match s with
  | '-' :: r => (digits r).map (fun v => (2 ^ 32 - v) % 2 ^ 32)
  | '+' :: r => digits r
  | r => digits r

/-- Model of `boost::lexical_cast<exponent_type>` on the exponent field, the exponent
type being `boost::int32_t`: an optional sign and then nothing but digits, the value
fitting 32 bits.  None is `bad_lexical_cast`. -/
def lexical_cast_exponent (s : List Char) : Option Int :=
  let digits (r : List Char) : Option Nat :=
    if r ≠ [] ∧ r.all Char.isDigit = true then some (digits_value r) else none
  match s with
  | '-' :: r => (digits r).bind (fun v => if -(v : Int) < INT32_MIN then none else some (-(v : Int)))
  | '+' :: r => (digits r).bind (fun v => if INT32_MAX < (v : Int) then none else some (v : Int))
  | r => (digits r).bind (fun v => if INT32_MAX < (v : Int) then none else some (v : Int))

/-- First step of `rd_string`: a possible exponent field, introduced by the first `e`
or else the first `E`, is converted and removed. -/
def rd_exponent (s : List Char) : Option (Int × List Char) :=
  match (match str_find 'e' s with
         | some pos => some pos
         | none => str_find 'E' s) with
  | some pos => (lexical_cast_exponent (s.drop (pos + 1))).map (fun e => (e, s.take pos))
  | none => some (0, s)

/-- Second step of `rd_string`: a possible sign is recorded and removed. -/
def rd_sign : List Char → Bool × List Char
  | '-' :: r => (true, r)
  | '+' :: r => (false, r)
  | r => (false, r)

/-- The spellings of infinity `rd_string` accepts. -/
def rd_is_inf (str : List Char) : Bool :=
  str = "inf".data || str = "INF".data || str = "infinity".data || str = "INFINITY".data

/-- The spellings `rd_string` takes for a NaN: a text that starts with one of them. -/
def rd_is_nan (str : List Char) : Bool :=
  decide (3 ≤ str.length) &&
    (str.take 3 = "nan".data || str.take 3 = "NAN".data || str.take 3 = "NaN".data)

/-- The step of `rd_string` that finds the decimal point.  With a point, trailing
zeros are removed, and a text that starts with the point has the zeros after it
removed and its first significant digit brought in front of the point; without a
point, one is appended.  None stands for a text that is identically zero. -/
def rd_point (str : List Char) (exp : Int) : Option (List Char × Int) :=
  match str_find '.' str with
  | some _ =>
    let str1 := (str.reverse.dropWhile (fun c => c == '0')).reverse
    if str1 = ['.'] then none
    else
      match str1 with
      | '.' :: rest =>
        let delta_exp := (rest.takeWhile (fun c => c == '0')).length
        some (str_insert (rest.dropWhile (fun c => c == '0')) 1 ['.'],
              exp - ((delta_exp : Int) + 1))
      | _ => some (str1, exp)
  | none => some (str ++ ['.'], exp)

/-- The step of `rd_string` that moves the point to the right until the exponent is a
multiple of eight, appending zeros when the digits after the point do not suffice.
The remainder is the truncating one of C++, and a negative remainder is raised by
eight. -/
def rd_shift (str : List Char) (exp : Int) : List Char × Int :=
  let r := Int.tmod exp 8
  let n_shift : Nat := if r ≠ 0 then (if exp < 0 then (r + 8).toNat else r.toNat) else 0
  match str_find '.' str with
  | none => (str, exp)
  | some pos =>
    let pos_plus_one := pos + 1
    let str1 :=
      if str.length - pos_plus_one < n_shift then
        str ++ List.replicate (n_shift - (str.length - pos_plus_one)) '0'
      else str
    if n_shift ≠ 0 then
      (str_erase (str_insert str1 (pos_plus_one + n_shift) ['.']) pos 1, exp - (n_shift : Int))
    else (str1, exp)

/-- The step of `rd_string` that leaves at most eight digits in front of the point,
moving the point to the left by a multiple of eight. -/
def rd_cut (str : List Char) (exp : Int) : List Char × Int :=
  match str_find '.' str with
  | none => (str, exp)
  | some pos =>
    if pos > cpp_dec_float_elem_digits10 then
      let n_rem_is_zero : Nat := if pos % cpp_dec_float_elem_digits10 = 0 then 1 else 0
      let n := pos / cpp_dec_float_elem_digits10 - n_rem_is_zero
      (str_erase (str_insert str (pos - n * cpp_dec_float_elem_digits10) ['.']) (pos + 1) 1,
       exp + ((n * cpp_dec_float_elem_digits10 : Nat) : Int))
    else (str, exp)

/-- Conversion of `n` consecutive groups of eight characters into limbs. -/
def rd_limbs : Nat → List Char → Option (List Nat)
  | 0, _ => some []
  | n + 1, s =>
    match lexical_cast_uint32 (s.take cpp_dec_float_elem_digits10) with
    | none => none
    | some v => (rd_limbs n (s.drop cpp_dec_float_elem_digits10)).map (fun vs => v :: vs)

/-- The last steps of `rd_string`: the digits after the point are padded with zeros to
a multiple of eight, cut off after `(elem_number - 1) * 8` digits, and the limbs are
converted: the first from the digits in front of the point, the others from each
group of eight digits after it.  None is `bad_lexical_cast`. -/
def rd_extract (str : List Char) : Option (List Nat) :=
  match str_find '.' str with
  | none => none
  | some pos =>
    let pos_plus_one := pos + 1
    let n_dec := (str.length - 1) - pos
    let n_rem := n_dec % cpp_dec_float_elem_digits10
    let n_cnt := if n_rem ≠ 0 then cpp_dec_float_elem_digits10 - n_rem else 0
    let str1 := str ++ List.replicate n_cnt '0'
    let max_dec := (cpp_dec_float_elem_number - 1) * cpp_dec_float_elem_digits10
    let str2 := if str1.length - pos > max_dec then str1.take (pos_plus_one + max_dec) else str1
    match lexical_cast_uint32 (str2.take pos) with
    | none => none
    | some d0 =>
      let i_end := (str2.length - pos_plus_one) / cpp_dec_float_elem_digits10
      (rd_limbs i_end (str2.drop pos_plus_one)).map (fun ds =>
        d0 :: ds ++ List.replicate (cpp_dec_float_elem_number - 1 - i_end) 0)

/-- The test `isone()`: a finite, positive value whose first limb is one, whose other
limbs are zero and whose exponent is zero. -/
def cpp_dec_float_100.isone (x : cpp_dec_float_100) : Bool :=
  !x.neg && decide (x.fpclass = .cpp_dec_float_finite) && decide (x.exp = 0) &&
    decide (x.data.head? = some 1) && x.data.tail.all (fun d => d == 0)

/-- The closing range checks of `rd_string`: an exponent above the largest one gives
an infinity, one at or below the smallest gives zero. -/
def rd_range (x : cpp_dec_float_100) : cpp_dec_float_100 :=
  if x.exp > cpp_dec_float_max_exp10 then cpp_dec_float_100.inf x.neg
  else if x.exp ≤ cpp_dec_float_min_exp10 then
    if x.exp = cpp_dec_float_min_exp10 then
      (if cpp_dec_float_100.isone { x with exp := 0 } then cpp_dec_float_100.zero else x)
    else cpp_dec_float_100.zero
  else x

/-- Model of `cpp_dec_float<100>::rd_string`, the conversion behind the constructor of
`cpp_dec_float_100` from a text.  None is the `bad_lexical_cast` that the constructor
turns into a `std::runtime_error`.  The exponent is a mathematical integer. -/
def rd_string (s : List Char) : Option cpp_dec_float_100 :=
  match rd_exponent s with
  | none => none
  | some (exp0, str0) =>
    let (neg, str1) := rd_sign str0
    if rd_is_inf str1 then some (cpp_dec_float_100.inf neg)
    else if rd_is_nan str1 then some cpp_dec_float_100.nan
    else
      let str2 := str1.dropWhile (fun c => c == '0')
      if str2 ≠ str1 ∧ str2 = [] then some cpp_dec_float_100.zero
      else
        match rd_point str2 exp0 with
        | none => some cpp_dec_float_100.zero
        | some (str3, exp1) =>
          let (str4, exp2) := rd_shift str3 exp1
          let (str5, exp3) := rd_cut str4 exp2
          match rd_extract str5 with
          | none => none
          | some data => some (rd_range ⟨data, exp3, neg, .cpp_dec_float_finite⟩)

/-! ## `literal_expression.hpp` and `literal_expression.cpp` -/

/-- The enumeration `literal_expression_type`. -/
inductive literal_expression_type where
  | INTEGER_EXPR
  | DECIMAL_EXPR
  | FLOATING_POINT_EXPR
  | STRING_EXPR
  | BIT_EXPR
  | QUBIT_EXPR
deriving DecidableEq, Repr

open literal_expression_type

/-- The private fields of class `literal_expression`; the third is
`m_type_instance_from_parser` in the source. -/
structure literal_expression where
  m_tok : token
  m_instance : type_instance
  m_type_instance_from_parser_flag : Bool
  m_expr_type : literal_expression_type
  m_val : String

namespace literal_expression

/-- The three-argument constructor: `m_instance` is default-constructed. -/
def new (tok : token) (expr_type : literal_expression_type) (val : String) :
    literal_expression where
  m_tok := tok
  m_instance := star_instance
  m_type_instance_from_parser_flag := false
  m_expr_type := expr_type
  m_val := val

/-- Accessor `get_token`. -/
def get_token (l : literal_expression) : token := l.m_tok

/-- First overload of `set_type_instance`. -/
def set_type_instance (l : literal_expression) (inst : type_instance) :
    literal_expression :=
  { l with m_instance := inst }

/-- Second overload of `set_type_instance`, which also records who set the instance. -/
def set_type_instance_from (l : literal_expression) (inst : type_instance)
    (from_parser_flag : Bool) : literal_expression :=
  { l with m_instance := inst, m_type_instance_from_parser_flag := from_parser_flag }

/-- Accessor `get_type_instance`. -/
def get_type_instance (l : literal_expression) : type_instance := l.m_instance

/-- Accessor `has_type_instance`: false exactly on the star instance name. -/
def has_type_instance (l : literal_expression) : Bool :=
  if l.m_instance.get_name = "*" then false else true

/-- Accessor `type_instance_from_parser`. -/
def type_instance_from_parser_flag (l : literal_expression) : Bool :=
  l.m_type_instance_from_parser_flag

/-- Accessor `get_expression_type`. -/
def get_expression_type (l : literal_expression) : literal_expression_type :=
  l.m_expr_type

/-- Accessor `get_value`. -/
def get_value (l : literal_expression) : String := l.m_val

/-- The copy constructor, which reads every field through its getter. -/
def copy (lit_expr : literal_expression) : literal_expression where
  m_tok := lit_expr.get_token
  m_instance := lit_expr.get_type_instance
  m_type_instance_from_parser_flag := lit_expr.type_instance_from_parser_flag
  m_expr_type := lit_expr.get_expression_type
  m_val := lit_expr.get_value

/-- The assignment copy operator: every field of the target is overwritten. -/
def assign (_self lit_expr : literal_expression) : literal_expression where
  m_tok := lit_expr.get_token
  m_instance := lit_expr.get_type_instance
  m_type_instance_from_parser_flag := lit_expr.type_instance_from_parser_flag
  m_expr_type := lit_expr.get_expression_type
  m_val := lit_expr.get_value

/-- Member `get_int_value`: the text converted by `strtoll` in base 10 when the
literal is an integer, a `value_error` otherwise. -/
def get_int_value (l : literal_expression) : Except exception Int :=
  if l.m_expr_type = INTEGER_EXPR then
    let value := strtoll (c_str l.m_val)
    .ok value
  else
    .error (.value_error "This literal expression doesn't contain an integer.")

/-- Member `get_dec_value`: a `cpp_dec_float_100` constructed from the text when the
literal is a decimal, a `value_error` otherwise.  The constructor throws a
`std::runtime_error` on a text it cannot convert. -/
def get_dec_value (l : literal_expression) : Except exception cpp_dec_float_100 :=
  if l.m_expr_type = DECIMAL_EXPR then
    match rd_string (c_str l.m_val) with
    | some value => .ok value
    | none => .error (.runtime_error
        ("Unable to parse the string \"" ++ String.mk (c_str l.m_val) ++
          "\" as a floating point value."))
  else
    .error (.value_error "This literal expression doesn't contain a decimal.")

/-- Member `get_float_value`: the text converted by the C library's `atof`, which is
a parameter here (`double` values are not modelled), when the literal is a floating
point number, a `value_error` otherwise. -/
def get_float_value {double : Type} (atof : List Char → double) (l : literal_expression) :
    Except exception double :=
  if l.m_expr_type = FLOATING_POINT_EXPR then
    let value := atof (c_str l.m_val)
    .ok value
  else
    .error (.value_error "This literal expression doesn't contain a decimal.")

/-- Member `get_string_value`: the text itself when the literal is a string, a
`value_error` otherwise. -/
def get_string_value (l : literal_expression) : Except exception String :=
  if l.m_expr_type = STRING_EXPR then
    .ok l.m_val
  else
    .error (.value_error "This literal expression doesn't contain a string.")

end literal_expression

/-! ## `avalon_cast.cpp` -/

/-- Modelled from the spec: the identifier reference node, "an AST leaf referring to a
named zero-argument constructor" that "exposes its resolved type instance";
`identifier_expression.hpp` is not among the sources. -/
structure identifier_expression where
  m_tok : token
  m_instance : type_instance

/-- Accessor `get_type_instance` of an identifier expression. -/
def identifier_expression.get_type_instance (e : identifier_expression) : type_instance :=
  e.m_instance

/-- Modelled from the spec: the expression node behind `std::shared_ptr<expr>`.  The
dispatchers tell an identifier reference, a literal and "any other shape" apart;
`expr.hpp` and the other expression classes are not among the sources, so every other
shape is one constructor carrying a tag for its class and its type instance. -/
inductive expr where
  | identifier (e : identifier_expression)
  | literal (e : literal_expression)
  | other (tag : String) (inst : type_instance)

/-- Virtual member `is_identifier_expression`. -/
def expr.is_identifier_expression : expr → Bool
  | .identifier _ => true
  | _ => false

/-- Virtual member `is_literal_expression`, overridden to true by `literal_expression`. -/
def expr.is_literal_expression : expr → Bool
  | .literal _ => true
  | _ => false

/-- Virtual member `expr_type_instance`. -/
def expr.expr_type_instance : expr → type_instance
  | .identifier e => e.get_type_instance
  | .literal e => e.get_type_instance
  | .other _ inst => inst

/-- The type-specific handlers the dispatchers forward to.  They are defined in
`interpreter/builtins/lang/avalon_{bool,int,dec,float}.cpp`, which are not among the
sources, and are parameters of the dispatchers. -/
structure handlers where
  bool_cast : List expr → type_instance → Except exception expr
  int_cast : List expr → type_instance → Except exception expr
  dec_cast : List expr → type_instance → Except exception expr
  float_cast : List expr → type_instance → Except exception expr
  bool_string : List expr → Except exception expr
  int_string : List expr → Except exception expr
  dec_string : List expr → Except exception expr
  float_string : List expr → Except exception expr
  int_float : List expr → Except exception expr

/-- The message of the three type failures of `avl_cast`. -/
def cast_unsupported : String :=
  "[compiler error] unexpected call to builtin function __cast__ using arguments of unsupported type instances"

/-- The message of the three type failures of `avl_string_cast`. -/
def string_unsupported : String :=
  "[compiler error] unexpected call to the <string> function using arguments of unsupported type instances"

/-- The message of the four type failures of `avl_float_cast`. -/
def float_unsupported : String :=
  "[compiler error] unexpected call to the <float> function using arguments of unsupported type instances"

/-- Function `avl_cast`, the builtin cast function. -/
def avl_cast (R : registry) (H : handlers) (arguments : List expr)
    (ret_instance : type_instance) : Except exception expr :=
  let bool_instance := R.bool_instance
  let int_instance := R.int_instance
  let dec_instance := R.dec_instance
  let float_instance := R.float_instance
  match arguments with
  | [arg] =>
    match arg with
    | .identifier arg_id =>
      let arg_instance := arg_id.get_type_instance
      if type_instance_strong_compare arg_instance bool_instance then
        H.bool_cast arguments ret_instance
      else
        .error (.invalid_call cast_unsupported)
    | .literal arg_lit =>
      let arg_instance := arg_lit.get_type_instance
      if type_instance_strong_compare arg_instance int_instance then
        H.int_cast arguments ret_instance
      else if type_instance_strong_compare arg_instance dec_instance then
        H.dec_cast arguments ret_instance
      else if type_instance_strong_compare arg_instance float_instance then
        H.float_cast arguments ret_instance
      else
        .error (.invalid_call cast_unsupported)
    | .other _ _ =>
      .error (.invalid_call cast_unsupported)
  | _ =>
    .error (.invalid_call
      "[compiler error] the builtin __cast__ function expects only one argument.")

/-- Function `avl_string_cast`, the cast to string. -/
def avl_string_cast (R : registry) (H : handlers) (arguments : List expr) :
    Except exception expr :=
  let bool_instance := R.bool_instance
  let int_instance := R.int_instance
  let dec_instance := R.dec_instance
  let float_instance := R.float_instance
  match arguments with
  | [arg] =>
    match arg with
    | .identifier arg_id =>
      let arg_instance := arg_id.get_type_instance
      if type_instance_strong_compare arg_instance bool_instance then
        H.bool_string arguments
      else
        .error (.invalid_call string_unsupported)
    | .literal arg_lit =>
      let arg_instance := arg_lit.get_type_instance
      if type_instance_strong_compare arg_instance int_instance then
        H.int_string arguments
      else if type_instance_strong_compare arg_instance dec_instance then
        H.dec_string arguments
      else if type_instance_strong_compare arg_instance float_instance then
        H.float_string arguments
      else
        .error (.invalid_call string_unsupported)
    | .other _ _ =>
      .error (.invalid_call string_unsupported)
  | _ =>
    .error (.invalid_call "[compiler error] the <string> function expects only one argument.")

/-- Function `avl_float_cast`, the cast to float.  The decimal test has a branch of its
own, which throws like the final one. -/
def avl_float_cast (R : registry) (H : handlers) (arguments : List expr) :
    Except exception expr :=
  let int_instance := R.int_instance
  let dec_instance := R.dec_instance
  match arguments with
  | [arg] =>
    match arg with
    | .identifier _ =>
      .error (.invalid_call float_unsupported)
    | .literal arg_lit =>
      let arg_instance := arg_lit.get_type_instance
      if type_instance_strong_compare arg_instance int_instance then
        H.int_float arguments
      else if type_instance_strong_compare arg_instance dec_instance then
        .error (.invalid_call float_unsupported)
      else
        .error (.invalid_call float_unsupported)
    | .other _ _ =>
      .error (.invalid_call float_unsupported)
  | _ =>
    .error (.invalid_call "[compiler error] the <float> function expects only one argument.")

/-! ## Observation helpers -/

/-- Whether a result is a thrown `value_error`. -/
def throws_value_error {α : Type} : Except exception α → Bool
  | .error (.value_error _) => true
  | _ => false

/-- A handler table for observing the routing: each handler does nothing but report
its own name, as the tag of the node it returns. -/
def probe_handlers : handlers where
  bool_cast := fun _ ret => .ok (.other "bool_cast" ret)
  int_cast := fun _ ret => .ok (.other "int_cast" ret)
  dec_cast := fun _ ret => .ok (.other "dec_cast" ret)
  float_cast := fun _ ret => .ok (.other "float_cast" ret)
  bool_string := fun _ => .ok (.other "bool_string" star_instance)
  int_string := fun _ => .ok (.other "int_string" star_instance)
  dec_string := fun _ => .ok (.other "dec_string" star_instance)
  float_string := fun _ => .ok (.other "float_string" star_instance)
  int_float := fun _ => .ok (.other "int_float" star_instance)

/-- Modelled from the spec: the handler `dec_string` of
`interpreter/builtins/lang/avalon_dec.cpp`, which is not among the sources.  On a
decimal literal it "returns a STRING-kind literal" holding the text of the argument. -/
def spec_dec_string : List expr → Except exception expr
  | [.literal l] => .ok (.literal (literal_expression.new l.get_token STRING_EXPR l.get_value))
  | _ => .error (.invalid_call "[compiler error] the <string> function expects only one argument.")

/-- Modelled from the spec: the canonical instance of the builtin string type. -/
def string_instance : type_instance := .mk "string" "*" []

/-- A token for the concrete nodes of the examples. -/
def sample_token : token := ⟨"7", 1, 1⟩

/-! ## Decimal numerals and their values -/

/-- The natural number a run of decimal digits denotes, most significant digit first. -/
def decimal_digits_number : List Char → Nat
  | [] => 0
  | c :: cs => digit_value c * 10 ^ cs.length + decimal_digits_number cs

/-- The rational number the decimal numeral with integer part `ip` and fractional part
`fp` denotes. -/
def decimal_numeral_rational (ip fp : List Char) : ℚ :=
  (decimal_digits_number ip : ℚ) + (decimal_digits_number fp : ℚ) / 10 ^ fp.length

/-- The list without its trailing zeros. -/
def rstrip_zeros (l : List Char) : List Char :=
  (l.reverse.dropWhile (fun c => c == '0')).reverse

/-- The rational number denoted by the digits `a` in front of the point and `b` after
it, scaled by `10 ^ e`. -/
def pointed_value (a b : List Char) (e : Int) : ℚ :=
  (digits_value (a ++ b) : ℚ) * (10 : ℚ) ^ (e - (b.length : Int))

/-! ## Member calls and routing outcomes -/

/-- A call of a public member function of `literal_expression` that is defined in
`literal_expression.hpp` or `literal_expression.cpp`, with its arguments.  The
accessor `get_bit_value` is declared in the header and defined in neither file. -/
inductive member_call where
  | set_type_instance (inst : type_instance)
  | set_type_instance_from (inst : type_instance) (from_parser_flag : Bool)
  | assign (lit_expr : literal_expression)
  | get_token
  | get_type_instance
  | has_type_instance
  | type_instance_from_parser_flag
  | get_expression_type
  | get_value
  | get_int_value
  | get_dec_value
  | get_float_value
  | get_string_value
  | expr_token
  | expr_type_instance
  | has_match_expression
  | is_literal_expression

/-- The node after a member call, whether the call returns or throws: the two
overloads of `set_type_instance` and the assignment operator write fields, the body of
every other member assigns no field. -/
def member_call.after (m : member_call) (l : literal_expression) : literal_expression :=
  match m with
  | .set_type_instance inst => l.set_type_instance inst
  | .set_type_instance_from inst from_parser_flag =>
    l.set_type_instance_from inst from_parser_flag
  | .assign lit_expr => l.assign lit_expr
  | _ => l

/-- Whether a member call is the assignment copy operator. -/
def member_call.is_assignment : member_call → Bool
  | .assign _ => true
  | _ => false

/-- The outcome of a dispatch before any handler runs: the handler chosen, or the
exception thrown. -/
inductive routing where
  | bool_cast
  | int_cast
  | dec_cast
  | float_cast
  | bool_string
  | int_string
  | dec_string
  | float_string
  | int_float
  | failure (e : exception)
deriving DecidableEq, Repr

/-- What a dispatcher returns once the routing is decided: the result of the chosen
handler on the argument list (and the target type, for the casts), or the exception. -/
def routing.run (r : routing) (H : handlers) (arguments : List expr)
    (ret_instance : type_instance) : Except exception expr :=
  match r with
  | .bool_cast => H.bool_cast arguments ret_instance
  | .int_cast => H.int_cast arguments ret_instance
  | .dec_cast => H.dec_cast arguments ret_instance
  | .float_cast => H.float_cast arguments ret_instance
  | .bool_string => H.bool_string arguments
  | .int_string => H.int_string arguments
  | .dec_string => H.dec_string arguments
  | .float_string => H.float_string arguments
  | .int_float => H.int_float arguments
  | .failure e => .error e

/-- The routing as the specification words it: the argument's type instance is
compared with each candidate of an ordered list, "the first structural match wins",
and without a match the dispatch fails. -/
def candidate_scan (arg_instance : type_instance) (no_match : routing) :
    List (type_instance × routing) → routing
  | [] => no_match
  | (candidate, chosen) :: rest =>
    if type_instance_strong_compare arg_instance candidate then chosen
    else candidate_scan arg_instance no_match rest

/-! ## Strong comparison is structural equality -/

mutual
theorem strong_compare_sound :
    ∀ a b : type_instance, type_instance_strong_compare a b = true → a = b
  | .mk n1 m1 p1, .mk n2 m2 p2, h => by
    simp only [type_instance_strong_compare, Bool.and_eq_true, decide_eq_true_eq] at h
    obtain ⟨⟨hn, hm⟩, hp⟩ := h
    rw [hn, hm, params_compare_sound p1 p2 hp]
theorem params_compare_sound :
    ∀ p q : List type_instance, type_instance_params_compare p q = true → p = q
  | [], [], _ => rfl
  | [], _ :: _, h => by simp [type_instance_params_compare] at h
  | _ :: _, [], h => by simp [type_instance_params_compare] at h
  | a :: as, b :: bs, h => by
    simp only [type_instance_params_compare, Bool.and_eq_true] at h
    rw [strong_compare_sound a b h.1, params_compare_sound as bs h.2]
end

mutual
theorem strong_compare_refl : ∀ a : type_instance, type_instance_strong_compare a a = true
  | .mk n m p => by
    simp only [type_instance_strong_compare, Bool.and_eq_true, decide_eq_true_eq, true_and]
    exact params_compare_refl p
theorem params_compare_refl :
    ∀ p : List type_instance, type_instance_params_compare p p = true
  | [] => rfl
  | a :: as => by
    simp only [type_instance_params_compare, Bool.and_eq_true]
    exact ⟨strong_compare_refl a, params_compare_refl as⟩
end

theorem strong_compare_iff (a b : type_instance) :
    type_instance_strong_compare a b = true ↔ a = b :=
  ⟨strong_compare_sound a b, fun h => h ▸ strong_compare_refl a⟩

/-! ## The decode accessors fail exactly on a kind mismatch -/

/-- C1: each of `get_int_value`, `get_dec_value`, `get_float_value` and
`get_string_value` throws `value_error` if and only if the kind tag of the literal
differs from the accessor's own kind, so that a mismatch never yields a value.  In
particular `get_int_value` throws on a `STRING_EXPR` literal, and all four accessors
throw on a `BIT_EXPR` and on a `QUBIT_EXPR` literal. -/
theorem decode_accessor_throws_iff_kind_differs {double : Type} (atof : List Char → double)
    (l : literal_expression) :
    (throws_value_error l.get_int_value = true ↔ l.get_expression_type ≠ INTEGER_EXPR) ∧
    (throws_value_error l.get_dec_value = true ↔ l.get_expression_type ≠ DECIMAL_EXPR) ∧
    (throws_value_error (l.get_float_value atof) = true ↔
      l.get_expression_type ≠ FLOATING_POINT_EXPR) ∧
    (throws_value_error l.get_string_value = true ↔ l.get_expression_type ≠ STRING_EXPR) ∧
    (∀ (tok : token) (inst : type_instance) (fp : Bool) (val : String),
      throws_value_error (literal_expression.mk tok inst fp STRING_EXPR val).get_int_value
        = true) ∧
    (∀ (tok : token) (inst : type_instance) (fp : Bool) (val : String)
      (k : literal_expression_type), k = BIT_EXPR ∨ k = QUBIT_EXPR →
      throws_value_error (literal_expression.mk tok inst fp k val).get_int_value = true ∧
      throws_value_error (literal_expression.mk tok inst fp k val).get_dec_value = true ∧
      throws_value_error ((literal_expression.mk tok inst fp k val).get_float_value atof)
        = true ∧
      throws_value_error (literal_expression.mk tok inst fp k val).get_string_value = true) := by
  refine ⟨?_, ?_, ?_, ?_, ?_, ?_⟩
  · cases hk : l.m_expr_type <;>
      simp [literal_expression.get_int_value, literal_expression.get_expression_type,
        throws_value_error, hk]
  · cases hk : l.m_expr_type <;>
      simp [literal_expression.get_dec_value, literal_expression.get_expression_type,
        throws_value_error, hk]
    cases rd_string (c_str l.m_val) <;> simp [throws_value_error]
  · cases hk : l.m_expr_type <;>
      simp [literal_expression.get_float_value, literal_expression.get_expression_type,
        throws_value_error, hk]
  · cases hk : l.m_expr_type <;>
      simp [literal_expression.get_string_value, literal_expression.get_expression_type,
        throws_value_error, hk]
  · intro tok inst fp val
    simp [literal_expression.get_int_value, throws_value_error]
  · intro tok inst fp val k hk
    rcases hk with hk | hk <;> subst hk <;>
      simp [literal_expression.get_int_value, literal_expression.get_dec_value,
        literal_expression.get_float_value, literal_expression.get_string_value,
        throws_value_error]

/-! ## The dispatchers -/

/-- C2: each of `avl_cast`, `avl_string_cast` and `avl_float_cast` throws its arity
`invalid_call` on every argument list whose length is not one, whatever the handlers
are: none of them contributes to the result. -/
theorem dispatch_arity_error (R : registry) (H : handlers) (arguments : List expr)
    (ret_instance : type_instance) (h : arguments.length ≠ 1) :
    avl_cast R H arguments ret_instance = .error (.invalid_call
      "[compiler error] the builtin __cast__ function expects only one argument.") ∧
    avl_string_cast R H arguments = .error (.invalid_call
      "[compiler error] the <string> function expects only one argument.") ∧
    avl_float_cast R H arguments = .error (.invalid_call
      "[compiler error] the <float> function expects only one argument.") := by
  match arguments, h with
  | [], _ => exact ⟨rfl, rfl, rfl⟩
  | [_], h => exact absurd rfl h
  | _ :: _ :: _, _ => exact ⟨rfl, rfl, rfl⟩

/-- Witness of C2 on the empty list and on a list of two literals. -/
theorem dispatch_arity_error_witness :
    (avl_cast builtin_registry probe_handlers [] star_instance = .error (.invalid_call
      "[compiler error] the builtin __cast__ function expects only one argument.") ∧
    avl_string_cast builtin_registry probe_handlers [] = .error (.invalid_call
      "[compiler error] the <string> function expects only one argument.") ∧
    avl_float_cast builtin_registry probe_handlers [] = .error (.invalid_call
      "[compiler error] the <float> function expects only one argument.")) ∧
    (avl_cast builtin_registry probe_handlers
      [.literal (literal_expression.new sample_token INTEGER_EXPR "7"),
       .literal (literal_expression.new sample_token INTEGER_EXPR "8")] star_instance
      = .error (.invalid_call
      "[compiler error] the builtin __cast__ function expects only one argument.") ∧
    avl_string_cast builtin_registry probe_handlers
      [.literal (literal_expression.new sample_token INTEGER_EXPR "7"),
       .literal (literal_expression.new sample_token INTEGER_EXPR "8")]
      = .error (.invalid_call
      "[compiler error] the <string> function expects only one argument.") ∧
    avl_float_cast builtin_registry probe_handlers
      [.literal (literal_expression.new sample_token INTEGER_EXPR "7"),
       .literal (literal_expression.new sample_token INTEGER_EXPR "8")]
      = .error (.invalid_call
      "[compiler error] the <float> function expects only one argument.")) :=
  ⟨dispatch_arity_error builtin_registry probe_handlers [] star_instance (by decide),
   dispatch_arity_error builtin_registry probe_handlers _ star_instance (by decide)⟩

/-- C3: on a list of exactly one literal `avl_cast` returns what `int_cast` returns on
the same list and target type when the literal's type instance strongly equals the
int instance, otherwise what `dec_cast` returns when it strongly equals the decimal
instance, otherwise what `float_cast` returns when it strongly equals the float
instance, and otherwise throws `invalid_call`.  A literal tagged `INTEGER_EXPR` with
text "7" and the int instance reaches the integer handler. -/
theorem avl_cast_literal_routing (R : registry) (H : handlers) (l : literal_expression)
    (ret_instance : type_instance) :
    (type_instance_strong_compare l.get_type_instance R.int_instance = true →
      avl_cast R H [.literal l] ret_instance = H.int_cast [.literal l] ret_instance) ∧
    (type_instance_strong_compare l.get_type_instance R.int_instance = false →
      type_instance_strong_compare l.get_type_instance R.dec_instance = true →
      avl_cast R H [.literal l] ret_instance = H.dec_cast [.literal l] ret_instance) ∧
    (type_instance_strong_compare l.get_type_instance R.int_instance = false →
      type_instance_strong_compare l.get_type_instance R.dec_instance = false →
      type_instance_strong_compare l.get_type_instance R.float_instance = true →
      avl_cast R H [.literal l] ret_instance = H.float_cast [.literal l] ret_instance) ∧
    (type_instance_strong_compare l.get_type_instance R.int_instance = false →
      type_instance_strong_compare l.get_type_instance R.dec_instance = false →
      type_instance_strong_compare l.get_type_instance R.float_instance = false →
      avl_cast R H [.literal l] ret_instance = .error (.invalid_call cast_unsupported)) ∧
    avl_cast builtin_registry probe_handlers
      [.literal ((literal_expression.new sample_token INTEGER_EXPR "7").set_type_instance
        builtin_registry.int_instance)] ret_instance
      = .ok (.other "int_cast" ret_instance) := by
  refine ⟨?_, ?_, ?_, ?_, ?_⟩
  · intro h1; simp [avl_cast, h1]
  · intro h1 h2; simp [avl_cast, h1, h2]
  · intro h1 h2 h3; simp [avl_cast, h1, h2, h3]
  · intro h1 h2 h3; simp [avl_cast, h1, h2, h3]
  · rfl

/-- C4: on a list of exactly one identifier reference `avl_cast` returns what
`bool_cast` returns when the identifier's type instance strongly equals the bool
instance and throws `invalid_call` for every other type instance, such as the
string, int, decimal and float instances; the result depends on no handler other
than `bool_cast`. -/
theorem avl_cast_identifier_routing (R : registry) (H : handlers)
    (e : identifier_expression) (ret_instance : type_instance) :
    (type_instance_strong_compare e.get_type_instance R.bool_instance = true →
      avl_cast R H [.identifier e] ret_instance = H.bool_cast [.identifier e] ret_instance) ∧
    (type_instance_strong_compare e.get_type_instance R.bool_instance = false →
      avl_cast R H [.identifier e] ret_instance = .error (.invalid_call cast_unsupported)) ∧
    (∀ H2 : handlers, H2.bool_cast = H.bool_cast →
      avl_cast R H2 [.identifier e] ret_instance = avl_cast R H [.identifier e] ret_instance) ∧
    (∀ (tok : token) (inst : type_instance),
      inst = string_instance ∨ inst = builtin_registry.int_instance ∨
        inst = builtin_registry.dec_instance ∨ inst = builtin_registry.float_instance →
      avl_cast builtin_registry H [.identifier ⟨tok, inst⟩] ret_instance
        = .error (.invalid_call cast_unsupported)) := by
  refine ⟨?_, ?_, ?_, ?_⟩
  · intro h1; simp [avl_cast, h1]
  · intro h1; simp [avl_cast, h1]
  · intro H2 hb
    simp only [avl_cast, hb]
  · intro tok inst hinst
    rcases hinst with h | h | h | h <;> subst h <;> rfl

/-- C5, the claim as stated fails: a single decimal literal whose type instance is the
decimal instance is not routed to a handler by `avl_float_cast`, which throws
`invalid_call` on it. -/
theorem avl_float_cast_decimal_counterexample :
    type_instance_strong_compare
      ((literal_expression.new sample_token DECIMAL_EXPR "1.5").set_type_instance
        builtin_registry.dec_instance).get_type_instance
      builtin_registry.dec_instance = true ∧
    avl_float_cast builtin_registry probe_handlers
      [.literal ((literal_expression.new sample_token DECIMAL_EXPR "1.5").set_type_instance
        builtin_registry.dec_instance)]
      = .error (.invalid_call float_unsupported) :=
  ⟨rfl, rfl⟩

/-- C5, as amended: `avl_float_cast` routes the int source only.  On a list of exactly
one literal it returns what `int_float` returns on that same list when the literal's
type instance strongly equals the int instance, and throws `invalid_call` for every
other type instance, the decimal instance included, which has a throwing branch of
its own. -/
theorem avl_float_cast_literal_routing (R : registry) (H : handlers) (l : literal_expression) :
    (type_instance_strong_compare l.get_type_instance R.int_instance = true →
      avl_float_cast R H [.literal l] = H.int_float [.literal l]) ∧
    (type_instance_strong_compare l.get_type_instance R.int_instance = false →
      avl_float_cast R H [.literal l] = .error (.invalid_call float_unsupported)) ∧
    (type_instance_strong_compare l.get_type_instance R.int_instance = false →
      type_instance_strong_compare l.get_type_instance R.dec_instance = true →
      avl_float_cast R H [.literal l] = .error (.invalid_call float_unsupported)) := by
  have hno : type_instance_strong_compare l.get_type_instance R.int_instance = false →
      avl_float_cast R H [.literal l] = .error (.invalid_call float_unsupported) := by
    intro h1
    by_cases h2 : type_instance_strong_compare l.get_type_instance R.dec_instance = true <;>
      simp [avl_float_cast, h1, h2]
  refine ⟨?_, hno, fun h1 _ => hno h1⟩
  intro h1; simp [avl_float_cast, h1]

/-- Witness of the amended C5 on an int literal, on a decimal literal and on a literal
of the string type, which reaches the final throw. -/
theorem avl_float_cast_literal_routing_witness :
    avl_float_cast builtin_registry probe_handlers
      [.literal ((literal_expression.new sample_token INTEGER_EXPR "7").set_type_instance
        builtin_registry.int_instance)]
      = probe_handlers.int_float
        [.literal ((literal_expression.new sample_token INTEGER_EXPR "7").set_type_instance
          builtin_registry.int_instance)] ∧
    avl_float_cast builtin_registry probe_handlers
      [.literal ((literal_expression.new sample_token DECIMAL_EXPR "1.5").set_type_instance
        builtin_registry.dec_instance)]
      = .error (.invalid_call float_unsupported) ∧
    avl_float_cast builtin_registry probe_handlers
      [.literal ((literal_expression.new sample_token STRING_EXPR "x").set_type_instance
        string_instance)]
      = .error (.invalid_call float_unsupported) :=
  ⟨(avl_float_cast_literal_routing builtin_registry probe_handlers _).1 rfl,
   (avl_float_cast_literal_routing builtin_registry probe_handlers _).2.2 rfl rfl,
   (avl_float_cast_literal_routing builtin_registry probe_handlers _).2.1 rfl⟩

/-- C6: when the float and int registry instances are not strongly equal,
`avl_float_cast` throws `invalid_call` on every list of exactly one literal whose type
instance strongly equals the float instance. -/
theorem avl_float_cast_rejects_float (R : registry) (H : handlers) (l : literal_expression)
    (hdistinct : type_instance_strong_compare R.float_instance R.int_instance = false)
    (hfloat : type_instance_strong_compare l.get_type_instance R.float_instance = true) :
    avl_float_cast R H [.literal l] = .error (.invalid_call float_unsupported) := by
  have hint : type_instance_strong_compare l.get_type_instance R.int_instance = false := by
    rw [(strong_compare_iff _ _).1 hfloat]
    exact hdistinct
  by_cases hdec : type_instance_strong_compare l.get_type_instance R.dec_instance = true <;>
    simp [avl_float_cast, hint, hdec]

/-- Witness of C6 on a float literal with the float instance of the builtin registry. -/
theorem avl_float_cast_rejects_float_witness :
    avl_float_cast builtin_registry probe_handlers
      [.literal ((literal_expression.new sample_token FLOATING_POINT_EXPR "2.5").set_type_instance
        builtin_registry.float_instance)]
      = .error (.invalid_call float_unsupported) :=
  avl_float_cast_rejects_float builtin_registry probe_handlers _ rfl rfl

/-- C7: on a list of exactly one argument `avl_string_cast` returns what the matching
handler returns on that same list: `bool_string` for an identifier of bool type, and
for a literal `int_string`, `dec_string` or `float_string` when its type instance
strongly equals the int, decimal or float instance, tested in that order; every
other type instance throws `invalid_call`.  A literal tagged `DECIMAL_EXPR` with text
"1.5" and the decimal instance yields the result of `dec_string`, which for the
handler the specification describes is a `STRING_EXPR` literal with value "1.5". -/
theorem avl_string_cast_routing (R : registry) (H : handlers) (e : identifier_expression)
    (l : literal_expression) :
    (type_instance_strong_compare e.get_type_instance R.bool_instance = true →
      avl_string_cast R H [.identifier e] = H.bool_string [.identifier e]) ∧
    (type_instance_strong_compare e.get_type_instance R.bool_instance = false →
      avl_string_cast R H [.identifier e] = .error (.invalid_call string_unsupported)) ∧
    (type_instance_strong_compare l.get_type_instance R.int_instance = true →
      avl_string_cast R H [.literal l] = H.int_string [.literal l]) ∧
    (type_instance_strong_compare l.get_type_instance R.int_instance = false →
      type_instance_strong_compare l.get_type_instance R.dec_instance = true →
      avl_string_cast R H [.literal l] = H.dec_string [.literal l]) ∧
    (type_instance_strong_compare l.get_type_instance R.int_instance = false →
      type_instance_strong_compare l.get_type_instance R.dec_instance = false →
      type_instance_strong_compare l.get_type_instance R.float_instance = true →
      avl_string_cast R H [.literal l] = H.float_string [.literal l]) ∧
    (type_instance_strong_compare l.get_type_instance R.int_instance = false →
      type_instance_strong_compare l.get_type_instance R.dec_instance = false →
      type_instance_strong_compare l.get_type_instance R.float_instance = false →
      avl_string_cast R H [.literal l] = .error (.invalid_call string_unsupported)) ∧
    avl_string_cast builtin_registry H
      [.literal ((literal_expression.new sample_token DECIMAL_EXPR "1.5").set_type_instance
        builtin_registry.dec_instance)]
      = H.dec_string
        [.literal ((literal_expression.new sample_token DECIMAL_EXPR "1.5").set_type_instance
          builtin_registry.dec_instance)] ∧
    (avl_string_cast builtin_registry { H with dec_string := spec_dec_string }
      [.literal ((literal_expression.new sample_token DECIMAL_EXPR "1.5").set_type_instance
        builtin_registry.dec_instance)]).toOption.bind
        (fun r => match r with
          | .literal s => some (s.get_expression_type, s.get_value)
          | _ => none)
      = some (STRING_EXPR, "1.5") := by
  refine ⟨?_, ?_, ?_, ?_, ?_, ?_, ?_, ?_⟩
  · intro h1; simp [avl_string_cast, h1]
  · intro h1; simp [avl_string_cast, h1]
  · intro h1; simp [avl_string_cast, h1]
  · intro h1 h2; simp [avl_string_cast, h1, h2]
  · intro h1 h2 h3; simp [avl_string_cast, h1, h2, h3]
  · intro h1 h2 h3; simp [avl_string_cast, h1, h2, h3]
  · rfl
  · rfl

/-- C8: each of `avl_cast`, `avl_string_cast` and `avl_float_cast` throws
`invalid_call` on every list of exactly one expression that is neither an identifier
reference nor a literal, whatever its type instance and whatever the handlers are. -/
theorem dispatch_rejects_other_shapes (R : registry) (H : handlers) (arg : expr)
    (ret_instance : type_instance)
    (hid : arg.is_identifier_expression = false) (hlit : arg.is_literal_expression = false) :
    avl_cast R H [arg] ret_instance = .error (.invalid_call cast_unsupported) ∧
    avl_string_cast R H [arg] = .error (.invalid_call string_unsupported) ∧
    avl_float_cast R H [arg] = .error (.invalid_call float_unsupported) := by
  cases arg with
  | identifier e => simp [expr.is_identifier_expression] at hid
  | literal e => simp [expr.is_literal_expression] at hlit
  | other tag inst => exact ⟨rfl, rfl, rfl⟩

/-- Witness of C8 on a node of another expression class that carries the int instance. -/
theorem dispatch_rejects_other_shapes_witness :
    avl_cast builtin_registry probe_handlers
      [.other "call_expression" builtin_registry.int_instance] star_instance
      = .error (.invalid_call cast_unsupported) ∧
    avl_string_cast builtin_registry probe_handlers
      [.other "call_expression" builtin_registry.int_instance]
      = .error (.invalid_call string_unsupported) ∧
    avl_float_cast builtin_registry probe_handlers
      [.other "call_expression" builtin_registry.int_instance]
      = .error (.invalid_call float_unsupported) :=
  dispatch_rejects_other_shapes builtin_registry probe_handlers _ star_instance rfl rfl


/-! ## Integer decoding -/

theorem digitChar_isDigit (k : Nat) (hk : k < 10) :
    (Nat.digitChar k).isDigit = true ∧ digit_value (Nat.digitChar k) = k := by
  interval_cases k <;> decide

theorem strtoll_digits_toDigitsCore (fuel : Nat) :
    ∀ (n : Nat) (ds : List Char), n < fuel →
      strtoll_digits (Nat.toDigitsCore 10 fuel n ds) 0 = strtoll_digits ds n := by
  induction fuel with
  | zero => intro n ds h; omega
  | succ fuel ih =>
    intro n ds h
    have hd := digitChar_isDigit (n % 10) (Nat.mod_lt _ (by decide))
    simp only [Nat.toDigitsCore]
    split
    · rename_i h0
      have hn : n % 10 = n := by omega
      rw [hn] at hd
      simp only [strtoll_digits, hd.1, if_true, hd.2, Nat.zero_mul, Nat.zero_add, hn]
    · rename_i h0
      rw [ih (n / 10) _ (by omega)]
      simp only [strtoll_digits, hd.1, if_true, hd.2]
      congr 1
      omega

theorem toDigitsCore_all_digits (fuel : Nat) :
    ∀ (n : Nat) (ds : List Char), (∀ c ∈ ds, c.isDigit = true) →
      ∀ c ∈ Nat.toDigitsCore 10 fuel n ds, c.isDigit = true := by
  induction fuel with
  | zero => intro n ds h; simpa [Nat.toDigitsCore] using h
  | succ fuel ih =>
    intro n ds h
    have hd := digitChar_isDigit (n % 10) (Nat.mod_lt _ (by decide))
    have hds : ∀ c ∈ Nat.digitChar (n % 10) :: ds, c.isDigit = true := by
      intro c hc
      rcases List.mem_cons.1 hc with rfl | hc
      · exact hd.1
      · exact h c hc
    simp only [Nat.toDigitsCore]
    split
    · exact hds
    · exact ih _ _ hds

theorem toDigitsCore_ne_nil (fuel n : Nat) (ds : List Char) (h : n < fuel) :
    Nat.toDigitsCore 10 fuel n ds ≠ [] := by
  induction fuel generalizing n ds with
  | zero => omega
  | succ fuel ih =>
    simp only [Nat.toDigitsCore]
    split
    · simp
    · exact ih _ _ (by omega)


theorem toDigits_head (m : Nat) :
    ∃ d ds, Nat.toDigits 10 m = d :: ds ∧ d.isDigit = true ∧
      ∀ c ∈ ds, c.isDigit = true := by
  have hall := toDigitsCore_all_digits (m + 1) m [] (by simp)
  have hne := toDigitsCore_ne_nil (m + 1) m [] (by omega)
  unfold Nat.toDigits
  cases hl : Nat.toDigitsCore 10 (m + 1) m [] with
  | nil => exact absurd hl hne
  | cons d ds =>
    rw [hl] at hall
    exact ⟨d, ds, rfl, hall d (by simp), fun c hc => hall c (by simp [hc])⟩

theorem isDigit_not_special (c : Char) (h : c.isDigit = true) :
    c ≠ '\x00' ∧ c ≠ '-' ∧ c ≠ '+' ∧ isspace c = false := by
  refine ⟨?_, ?_, ?_, ?_⟩
  · rintro rfl; exact absurd h (by decide)
  · rintro rfl; exact absurd h (by decide)
  · rintro rfl; exact absurd h (by decide)
  · simp only [isspace, Bool.or_eq_false_iff, beq_eq_false_iff_ne, ne_eq]
    refine ⟨⟨⟨⟨⟨?_, ?_⟩, ?_⟩, ?_⟩, ?_⟩, ?_⟩ <;> (rintro rfl; exact absurd h (by decide))

theorem c_str_of_digits (p : List Char) (l : List Char)
    (hp : ∀ c ∈ p, c ≠ '\x00') (h : ∀ c ∈ l, c.isDigit = true) :
    c_str (String.mk (p ++ l)) = p ++ l := by
  unfold c_str
  apply List.takeWhile_eq_self_iff.2
  intro c hc
  rcases List.mem_append.1 hc with hc | hc
  · simpa using hp c hc
  · simpa using (isDigit_not_special c (h c hc)).1


theorem strtoll_of_digit_head (d : Char) (ds : List Char) (hd : d.isDigit = true) :
    strtoll (d :: ds) =
      if LLONG_MAX < ((strtoll_digits (d :: ds) 0 : Nat) : Int) then LLONG_MAX
      else ((strtoll_digits (d :: ds) 0 : Nat) : Int) := by
  obtain ⟨_, hminus, hplus, hsp⟩ := isDigit_not_special d hd
  unfold strtoll
  simp only [List.dropWhile, hsp]
  split
  · rename_i r heq
    exact absurd (List.cons.inj heq).1 hminus
  · rename_i r heq
    exact absurd (List.cons.inj heq).1 hplus
  · rfl

theorem strtoll_of_minus (r : List Char) :
    strtoll ('-' :: r) =
      if -((strtoll_digits r 0 : Nat) : Int) < LLONG_MIN then LLONG_MIN
      else -((strtoll_digits r 0 : Nat) : Int) := by
  unfold strtoll
  have hsp : isspace '-' = false := by decide
  simp only [List.dropWhile, hsp]

theorem strtoll_digits_toDigits (m : Nat) : strtoll_digits (Nat.toDigits 10 m) 0 = m := by
  unfold Nat.toDigits
  rw [strtoll_digits_toDigitsCore (m + 1) m [] (by omega)]
  rfl

/-- C9: for every integer `n` with `-2^63 ≤ n ≤ 2^63 - 1`, the literal constructed with
kind `INTEGER_EXPR` and the base-10 rendering of `n` as its text decodes through
`get_int_value` to exactly `n`. -/
theorem get_int_value_roundtrip (tok : token) (n : Int)
    (hlo : -(2 ^ 63) ≤ n) (hhi : n ≤ 2 ^ 63 - 1) :
    (literal_expression.new tok INTEGER_EXPR (toString n)).get_int_value = .ok n := by
  simp only [literal_expression.get_int_value, literal_expression.new, if_true]
  congr 1
  cases n with
  | ofNat m =>
    obtain ⟨d, ds, hl, hd, hds⟩ := toDigits_head m
    have htext : toString (Int.ofNat m) = String.mk ([] ++ Nat.toDigits 10 m) := rfl
    have hall : ∀ c ∈ Nat.toDigits 10 m, c.isDigit = true := by
      rw [hl]; intro c hc
      rcases List.mem_cons.1 hc with rfl | hc
      · exact hd
      · exact hds c hc
    rw [htext, c_str_of_digits [] _ (by simp) hall, List.nil_append, hl,
      strtoll_of_digit_head d ds hd, ← hl, strtoll_digits_toDigits]
    have hm : ¬ LLONG_MAX < (m : Int) := by
      simp only [LLONG_MAX]
      have : (Int.ofNat m) = (m : Int) := rfl
      omega
    rw [if_neg hm]
    rfl
  | negSucc m =>
    obtain ⟨d, ds, hl, hd, hds⟩ := toDigits_head (m + 1)
    have htext : toString (Int.negSucc m) = String.mk (['-'] ++ Nat.toDigits 10 (m + 1)) := rfl
    have hall : ∀ c ∈ Nat.toDigits 10 (m + 1), c.isDigit = true := by
      rw [hl]; intro c hc
      rcases List.mem_cons.1 hc with rfl | hc
      · exact hd
      · exact hds c hc
    rw [htext, c_str_of_digits ['-'] _ (by simp) hall, List.singleton_append,
      strtoll_of_minus, strtoll_digits_toDigits]
    have hm : ¬ -(((m + 1 : Nat)) : Int) < LLONG_MIN := by
      simp only [LLONG_MIN]
      have : Int.negSucc m = -((m : Int) + 1) := Int.negSucc_eq m
      push_cast
      omega
    rw [if_neg hm]
    rw [Int.negSucc_eq]
    push_cast
    rfl

/-- Witness of C9 on the texts "42" and "-9223372036854775808". -/
theorem get_int_value_roundtrip_witness :
    (literal_expression.new sample_token INTEGER_EXPR "42").get_int_value = .ok 42 ∧
    (literal_expression.new sample_token INTEGER_EXPR "-9223372036854775808").get_int_value
      = .ok (-9223372036854775808) :=
  ⟨get_int_value_roundtrip sample_token 42 (by decide) (by decide),
   get_int_value_roundtrip sample_token (-9223372036854775808) (by decide) (by decide)⟩


/-! ## Decimal decoding -/

theorem digits_value_foldl (l : List Char) (acc : Nat) :
    l.foldl (fun a c => a * 10 + digit_value c) acc = acc * 10 ^ l.length + digits_value l := by
  induction l generalizing acc with
  | nil => simp [digits_value]
  | cons c cs ih =>
    simp only [List.foldl_cons, List.length_cons, digits_value]
    rw [ih, ih (0 * 10 + digit_value c)]
    ring

theorem digits_value_nil : digits_value [] = 0 := rfl

theorem digits_value_cons (c : Char) (cs : List Char) :
    digits_value (c :: cs) = digit_value c * 10 ^ cs.length + digits_value cs := by
  simp only [digits_value, List.foldl_cons]
  rw [digits_value_foldl]
  simp [digits_value]

theorem digits_value_eq_number (l : List Char) :
    digits_value l = decimal_digits_number l := by
  induction l with
  | nil => rfl
  | cons c cs ih => rw [digits_value_cons, decimal_digits_number, ih]

theorem digits_value_append (a b : List Char) :
    digits_value (a ++ b) = digits_value a * 10 ^ b.length + digits_value b := by
  induction a with
  | nil => simp [digits_value_nil]
  | cons c cs ih =>
    rw [List.cons_append, digits_value_cons, digits_value_cons, ih, List.length_append]
    ring

theorem digits_value_replicate_zero (n : Nat) : digits_value (List.replicate n '0') = 0 := by
  induction n with
  | zero => rfl
  | succ n ih =>
    rw [List.replicate_succ, digits_value_cons, ih]
    simp [digit_value]

theorem digits_value_lt (l : List Char) (h : ∀ c ∈ l, c.isDigit = true) :
    digits_value l < 10 ^ l.length := by
  induction l with
  | nil => simp [digits_value_nil]
  | cons c cs ih =>
    have hc : digit_value c ≤ 9 := by
      have := h c (by simp)
      simp only [Char.isDigit, Bool.and_eq_true, decide_eq_true_eq] at this
      have h1 : c.val.toNat ≤ 57 := this.2
      simp only [digit_value, Char.toNat]
      have : '0'.val.toNat = 48 := rfl
      omega
    have := ih (fun c hc => h c (by simp [hc]))
    rw [digits_value_cons, List.length_cons, pow_succ]
    nlinarith


theorem digit_ne_of_not_digit (c x : Char) (hc : c.isDigit = true) (hx : x.isDigit = false) :
    c ≠ x := by
  rintro rfl
  rw [hc] at hx
  cases hx

theorem str_find_none (c : Char) (l : List Char) (h : ∀ x ∈ l, x ≠ c) : str_find c l = none := by
  induction l with
  | nil => rfl
  | cons x xs ih =>
    simp only [str_find, h x (by simp), if_false, ih (fun y hy => h y (by simp [hy])),
      Option.map_none']

theorem str_find_append (c : Char) (a b : List Char) (h : ∀ x ∈ a, x ≠ c) :
    str_find c (a ++ c :: b) = some a.length := by
  induction a with
  | nil => simp [str_find]
  | cons x xs ih =>
    have ih2 := ih (fun y hy => h y (by simp [hy]))
    rw [List.cons_append]
    simp only [str_find, h x (by simp), if_false, ih2, Option.map_some', List.length_cons]

theorem str_find_point (a b : List Char) (h : ∀ x ∈ a, x.isDigit = true) :
    str_find '.' (a ++ '.' :: b) = some a.length :=
  str_find_append '.' a b (fun x hx => digit_ne_of_not_digit x '.' (h x hx) (by decide))

theorem dropWhile_append_stop {p : Char → Bool} (a b : List Char) (x : Char) (hx : p x = false) :
    (a ++ x :: b).dropWhile p = a.dropWhile p ++ x :: b := by
  induction a with
  | nil => simp [List.dropWhile, hx]
  | cons y ys ih =>
    simp only [List.cons_append, List.dropWhile]
    cases p y <;> simp [ih]

theorem takeWhile_zero_eq_replicate (l : List Char) :
    l.takeWhile (fun c => c == '0') = List.replicate (l.takeWhile (fun c => c == '0')).length '0' := by
  induction l with
  | nil => rfl
  | cons x xs ih =>
    simp only [List.takeWhile]
    by_cases hx : x = '0'
    · subst hx
      simp only [beq_self_eq_true, List.length_cons, List.replicate_succ]
      rw [← ih]
    · have : (x == '0') = false := by simpa using hx
      simp [this]

theorem rstrip_zeros_decomp (l : List Char) :
    ∃ k, l = rstrip_zeros l ++ List.replicate k '0' := by
  refine ⟨(l.reverse.takeWhile (fun c => c == '0')).length, ?_⟩
  have h := List.takeWhile_append_dropWhile (fun c => c == '0') l.reverse
  have h2 := congrArg List.reverse h
  rw [List.reverse_append, List.reverse_reverse] at h2
  rw [takeWhile_zero_eq_replicate, List.reverse_replicate] at h2
  exact h2.symm

theorem rstrip_zeros_pointed (a b : List Char) :
    ((a ++ '.' :: b).reverse.dropWhile (fun c => c == '0')).reverse
      = a ++ '.' :: rstrip_zeros b := by
  have hrev : (a ++ '.' :: b).reverse = b.reverse ++ '.' :: a.reverse := by simp
  rw [hrev, dropWhile_append_stop _ _ _ (by decide)]
  simp [rstrip_zeros]

theorem dropWhile_zero_decomp (l : List Char) :
    ∃ k, l = List.replicate k '0' ++ l.dropWhile (fun c => c == '0') ∧
      k = (l.takeWhile (fun c => c == '0')).length := by
  refine ⟨(l.takeWhile (fun c => c == '0')).length, ?_, rfl⟩
  have h := List.takeWhile_append_dropWhile (fun c => c == '0') l
  rw [takeWhile_zero_eq_replicate] at h
  exact h.symm

theorem mem_of_mem_dropWhile {p : Char → Bool} (l : List Char) (c : Char)
    (h : c ∈ l.dropWhile p) : c ∈ l :=
  (List.dropWhile_sublist p).subset h

theorem mem_of_mem_rstrip (l : List Char) (c : Char) (h : c ∈ rstrip_zeros l) : c ∈ l := by
  unfold rstrip_zeros at h
  have := mem_of_mem_dropWhile _ _ (List.mem_reverse.1 h)
  exact List.mem_reverse.1 this


theorem scale_pow (N j : Nat) (k : Int) :
    ((N * 10 ^ j : Nat) : ℚ) * (10 : ℚ) ^ (k - (j : Int)) = (N : ℚ) * (10 : ℚ) ^ k := by
  have h10 : (10 : ℚ) ≠ 0 := by norm_num
  push_cast
  rw [mul_assoc, ← zpow_natCast, ← zpow_add₀ h10]
  congr 2
  omega

theorem digits_value_zeros_append (k : Nat) (l : List Char) :
    digits_value (List.replicate k '0' ++ l) = digits_value l := by
  rw [digits_value_append, digits_value_replicate_zero]
  simp

theorem digits_value_append_zeros (l : List Char) (k : Nat) :
    digits_value (l ++ List.replicate k '0') = digits_value l * 10 ^ k := by
  rw [digits_value_append, digits_value_replicate_zero]
  simp

theorem pointed_value_pad (a b : List Char) (j : Nat) (e : Int) :
    pointed_value a (b ++ List.replicate j '0') e = pointed_value a b e := by
  unfold pointed_value
  rw [← List.append_assoc, digits_value_append_zeros, List.length_append, List.length_replicate]
  have := scale_pow (digits_value (a ++ b)) j (e - (b.length : Int))
  rw [← this]
  congr 2
  push_cast
  omega

theorem pointed_value_move (a b c : List Char) (e : Int) :
    pointed_value (a ++ b) c e = pointed_value a (b ++ c) (e + (b.length : Int)) := by
  unfold pointed_value
  rw [List.append_assoc, List.length_append]
  congr 2
  push_cast
  omega

theorem rstrip_ne_nil_dropWhile (l : List Char) (h : rstrip_zeros l ≠ []) :
    (rstrip_zeros l).dropWhile (fun c => c == '0') ≠ [] := by
  unfold rstrip_zeros at h ⊢
  cases hd : l.reverse.dropWhile (fun c => c == '0') with
  | nil => rw [hd] at h; exact absurd rfl h
  | cons x xs =>
    have hx : (x == '0') = false := by
      have := List.head_dropWhile_not (fun c => c == '0') l.reverse (by rw [hd]; simp)
      simpa [hd] using this
    rw [List.reverse_cons, dropWhile_append_stop (p := fun c => c == '0') xs.reverse [] x hx]
    simp


theorem rd_point_spec (a f : List Char) (ha : ∀ c ∈ a, c.isDigit = true)
    (hf : ∀ c ∈ f, c.isDigit = true) :
    (rd_point (a ++ '.' :: f) 0 = none ∧ pointed_value a f 0 = 0) ∨
    ∃ A B e, rd_point (a ++ '.' :: f) 0 = some (A ++ '.' :: B, e) ∧ A ≠ [] ∧
      (∀ c ∈ A, c.isDigit = true) ∧ (∀ c ∈ B, c.isDigit = true) ∧
      A.length + B.length ≤ a.length + f.length ∧ -(f.length : Int) ≤ e ∧ e ≤ 0 ∧
      pointed_value A B e = pointed_value a f 0 := by
  obtain ⟨j, hj⟩ := rstrip_zeros_decomp f
  have hF : ∀ c ∈ rstrip_zeros f, c.isDigit = true := fun c hc => hf c (mem_of_mem_rstrip f c hc)
  have hlen : f.length = (rstrip_zeros f).length + j := by
    conv_lhs => rw [hj]
    simp
  unfold rd_point
  rw [str_find_point a f ha]
  simp only [rstrip_zeros_pointed]
  cases a with
  | nil =>
    simp only [List.nil_append]
    by_cases hnil : rstrip_zeros f = []
    · left
      refine ⟨by simp [hnil], ?_⟩
      unfold pointed_value
      rw [List.nil_append, hj, hnil, List.nil_append, digits_value_replicate_zero]
      simp
    · right
      obtain ⟨k, hk, hkl⟩ := dropWhile_zero_decomp (rstrip_zeros f)
      have hk2 : (rstrip_zeros f).takeWhile (fun c => c == '0') = List.replicate k '0' := by
        rw [hkl]
        exact takeWhile_zero_eq_replicate _
      cases hG : (rstrip_zeros f).dropWhile (fun c => c == '0') with
      | nil => exact absurd hG (rstrip_ne_nil_dropWhile f hnil)
      | cons g G =>
        rw [hG] at hk
        have hgG : ∀ c ∈ g :: G, c.isDigit = true := by
          intro c hc
          apply hF
          rw [hk]
          exact List.mem_append_right _ hc
        refine ⟨[g], G, 0 - (((k : Nat) : Int) + 1), ?_, by simp, ?_, ?_, ?_, ?_, ?_, ?_⟩
        · simp [hnil, hG, hk2, str_insert]
        · intro c hc; exact hgG c (by simp at hc; simp [hc])
        · intro c hc; exact hgG c (by simp [hc])
        · have : (rstrip_zeros f).length = k + (G.length + 1) := by
            conv_lhs => rw [hk]
            simp
          simp only [List.length_cons, List.length_nil]
          omega
        · have : (rstrip_zeros f).length = k + (G.length + 1) := by
            conv_lhs => rw [hk]
            simp
          omega
        · omega
        · unfold pointed_value
          have hval : digits_value ([] ++ f) = digits_value ([g] ++ G) * 10 ^ j := by
            rw [List.nil_append]
            conv_lhs => rw [hj, hk]
            rw [digits_value_append_zeros, digits_value_zeros_append]
            rfl
          have hl : (rstrip_zeros f).length = k + (G.length + 1) := by
            conv_lhs => rw [hk]
            simp
          rw [hval]
          have := scale_pow (digits_value ([g] ++ G)) j (0 - (((k : Nat) : Int) + 1) - (G.length : Int))
          rw [← this]
          congr 2
          omega
  | cons a0 as =>
    right
    have ha0 : a0 ≠ '.' := digit_ne_of_not_digit a0 '.' (ha a0 (by simp)) (by decide)
    refine ⟨a0 :: as, rstrip_zeros f, 0, ?_, by simp, ha, hF, ?_, ?_, le_refl _, ?_⟩
    · simp [ha0]
    · omega
    · omega
    · conv_rhs => rw [hj]
      rw [pointed_value_pad]


theorem str_erase_at_append (p q : List Char) (c : Char) :
    str_erase (p ++ c :: q) p.length 1 = p ++ q := by
  unfold str_erase
  rw [List.take_left', List.drop_append_eq_append_drop]
  · simp
  · rfl

theorem str_insert_at_append (p q t : List Char) :
    str_insert (p ++ q) p.length t = p ++ t ++ q := by
  unfold str_insert
  rw [List.take_left', List.drop_left']
  · rfl
  · rfl

theorem rd_shift_amount (e : Int) :
    (if Int.tmod e 8 ≠ 0 then (if e < 0 then (Int.tmod e 8 + 8).toNat else (Int.tmod e 8).toNat)
      else 0) ≤ 7 := by
  cases e with
  | ofNat m =>
    have h : Int.tmod (Int.ofNat m) 8 = ((m % 8 : Nat) : Int) := rfl
    have hm : ¬ (Int.ofNat m < 0) := by
      have : Int.ofNat m = (m : Int) := rfl
      omega
    rw [h, if_neg hm]
    split <;> omega
  | negSucc m =>
    have h : Int.tmod (Int.negSucc m) 8 = -(((m + 1) % 8 : Nat) : Int) := rfl
    have hm : Int.negSucc m < 0 := Int.negSucc_lt_zero m
    rw [h, if_pos hm]
    split <;> omega

theorem rd_shift_spec (a b : List Char) (e : Int) (hne : a ≠ [])
    (ha : ∀ c ∈ a, c.isDigit = true) (hb : ∀ c ∈ b, c.isDigit = true) :
    ∃ A B e2, rd_shift (a ++ '.' :: b) e = (A ++ '.' :: B, e2) ∧ A ≠ [] ∧
      (∀ c ∈ A, c.isDigit = true) ∧ (∀ c ∈ B, c.isDigit = true) ∧
      A.length + B.length ≤ a.length + b.length + 7 ∧ e - 7 ≤ e2 ∧ e2 ≤ e ∧
      pointed_value A B e2 = pointed_value a b e := by
  have hamt := rd_shift_amount e
  unfold rd_shift
  rw [str_find_point a b ha]
  simp only
  generalize (if Int.tmod e 8 ≠ 0 then
    (if e < 0 then (Int.tmod e 8 + 8).toNat else (Int.tmod e 8).toNat) else 0) = n at hamt ⊢
  have hlen : (a ++ '.' :: b).length - (a.length + 1) = b.length := by simp; omega
  rw [hlen]
  have hstr1 : (if b.length < n then a ++ '.' :: b ++ List.replicate (n - b.length) '0'
      else a ++ '.' :: b) = a ++ '.' :: (b ++ List.replicate (n - b.length) '0') := by
    split
    · simp
    · have : n - b.length = 0 := by omega
      simp [this]
  rw [hstr1]
  have hb1 : ∀ c ∈ b ++ List.replicate (n - b.length) '0', c.isDigit = true := by
    intro c hc
    rcases List.mem_append.1 hc with hc | hc
    · exact hb c hc
    · rw [(List.mem_replicate.1 hc).2]; rfl
  have hb1len : (b ++ List.replicate (n - b.length) '0').length = b.length + (n - b.length) := by
    simp
  generalize hB1 : b ++ List.replicate (n - b.length) '0' = b1 at hb1 hb1len ⊢
  have hnle : n ≤ b1.length := by omega
  have hval : pointed_value (a ++ b1.take n) (b1.drop n) (e - (n : Int)) = pointed_value a b e := by
    rw [pointed_value_move, List.take_append_drop, List.length_take, Nat.min_eq_left hnle,
      ← hB1, pointed_value_pad]
    congr 1
    omega
  by_cases hn : n = 0
  · subst hn
    refine ⟨a, b1, e, by simp, hne, ha, hb1, by omega, by omega, le_refl _, ?_⟩
    simpa using hval
  · refine ⟨a ++ b1.take n, b1.drop n, e - (n : Int), ?_, by simp [hne], ?_, ?_, ?_, by omega,
      by omega, hval⟩
    · simp only [hn, ne_eq, not_false_eq_true, if_true, Prod.mk.injEq, and_true]
      have h1 : a ++ '.' :: b1 = (a ++ '.' :: b1.take n) ++ b1.drop n := by
        simp [List.take_append_drop]
      have h2 : a.length + 1 + n = (a ++ '.' :: b1.take n).length := by
        simp [Nat.min_eq_left hnle]
        omega
      rw [h1, h2, str_insert_at_append]
      have h3 : a ++ '.' :: List.take n b1 ++ ['.'] ++ List.drop n b1
          = a ++ '.' :: (List.take n b1 ++ ['.'] ++ List.drop n b1) := by simp
      rw [h3, str_erase_at_append]
      simp
    · intro c hc
      rcases List.mem_append.1 hc with hc | hc
      · exact ha c hc
      · exact hb1 c (List.mem_of_mem_take hc)
    · intro c hc
      exact hb1 c (List.mem_of_mem_drop hc)
    · simp only [List.length_append, List.length_take, List.length_drop]
      omega


theorem rd_cut_spec (a b : List Char) (e : Int) (hne : a ≠ [])
    (ha : ∀ c ∈ a, c.isDigit = true) (hb : ∀ c ∈ b, c.isDigit = true) :
    ∃ A B e2, rd_cut (a ++ '.' :: b) e = (A ++ '.' :: B, e2) ∧ 1 ≤ A.length ∧ A.length ≤ 8 ∧
      (∀ c ∈ A, c.isDigit = true) ∧ (∀ c ∈ B, c.isDigit = true) ∧
      A.length + B.length = a.length + b.length ∧ e ≤ e2 ∧ e2 ≤ e + (a.length : Int) ∧
      pointed_value A B e2 = pointed_value a b e := by
  have hpos : 1 ≤ a.length := by
    cases a with
    | nil => exact absurd rfl hne
    | cons x xs => simp
  unfold rd_cut
  rw [str_find_point a b ha]
  simp only [cpp_dec_float_elem_digits10]
  by_cases hgt : a.length > 8
  · rw [if_pos hgt]
    generalize hn : a.length / 8 - (if a.length % 8 = 0 then 1 else 0) = n
    have hn8 : n * 8 ≤ a.length ∧ 1 ≤ a.length - n * 8 ∧ a.length - n * 8 ≤ 8 := by
      subst hn
      split <;> omega
    generalize hm : a.length - n * 8 = m at hn8
    have hmle : m ≤ a.length := by omega
    refine ⟨a.take m, a.drop m ++ b, e + ((n * 8 : Nat) : Int), ?_, ?_, ?_, ?_, ?_, ?_, by omega,
      by omega, ?_⟩
    · simp only [Prod.mk.injEq, and_true]
      have h1 : a ++ '.' :: b = a.take m ++ (a.drop m ++ '.' :: b) := by
        rw [← List.append_assoc, List.take_append_drop]
      have h2 : m = (a.take m).length := by simp [Nat.min_eq_left hmle]
      conv_lhs => rw [h1]; arg 1; arg 2; rw [h2]
      rw [str_insert_at_append]
      have h3 : List.take m a ++ ['.'] ++ (List.drop m a ++ '.' :: b)
          = (List.take m a ++ ['.'] ++ List.drop m a) ++ '.' :: b := by simp
      have h4 : a.length + 1 = (List.take m a ++ ['.'] ++ List.drop m a).length := by
        simp [Nat.min_eq_left hmle]
        omega
      rw [h3, h4, str_erase_at_append]
      simp
    · simp [Nat.min_eq_left hmle]; omega
    · simp [Nat.min_eq_left hmle]; omega
    · intro c hc; exact ha c (List.mem_of_mem_take hc)
    · intro c hc
      rcases List.mem_append.1 hc with hc | hc
      · exact ha c (List.mem_of_mem_drop hc)
      · exact hb c hc
    · simp [Nat.min_eq_left hmle]; omega
    · have := pointed_value_move (a.take m) (a.drop m) b e
      rw [List.take_append_drop] at this
      rw [this]
      congr 1
      simp only [List.length_drop]
      push_cast
      omega
  · rw [if_neg hgt]
    exact ⟨a, b, e, rfl, hpos, by omega, ha, hb, rfl, le_refl _, by omega, rfl⟩

theorem lexical_cast_uint32_digits (l : List Char) (hne : l ≠ [])
    (hl : ∀ c ∈ l, c.isDigit = true) (hlen : l.length ≤ 8) :
    lexical_cast_uint32 l = some (digits_value l) := by
  have hlt := digits_value_lt l hl
  have hbound : digits_value l < 2 ^ 32 := by
    have : 10 ^ l.length ≤ 10 ^ 8 := Nat.pow_le_pow_right (by decide) hlen
    have h8 : (10 : Nat) ^ 8 < 2 ^ 32 := by decide
    omega
  have hall : l.all Char.isDigit = true := List.all_eq_true.2 hl
  cases l with
  | nil => exact absurd rfl hne
  | cons d ds =>
    have hd := hl d (by simp)
    have hminus : d ≠ '-' := digit_ne_of_not_digit d '-' hd (by decide)
    have hplus : d ≠ '+' := digit_ne_of_not_digit d '+' hd (by decide)
    unfold lexical_cast_uint32
    split
    · rename_i r heq
      exact absurd (List.cons.inj heq).1 hminus
    · rename_i r heq
      exact absurd (List.cons.inj heq).1 hplus
    · simp only [hall, hbound, ne_eq, not_false_eq_true, and_self, if_true, reduceCtorEq]

theorem limbs_value_zeros (z : Nat) (e : Int) :
    cpp_dec_float_100.limbs_value (List.replicate z 0) e = 0 := by
  induction z generalizing e with
  | zero => rfl
  | succ z ih =>
    rw [List.replicate_succ, cpp_dec_float_100.limbs_value, ih]
    simp

theorem rd_limbs_spec (k : Nat) :
    ∀ g : List Char, g.length = 8 * k → (∀ c ∈ g, c.isDigit = true) →
      ∃ ls, rd_limbs k g = some ls ∧ ls.length = k ∧ ∀ (z : Nat) (e : Int),
        cpp_dec_float_100.limbs_value (ls ++ List.replicate z 0) e
          = (digits_value g : ℚ) * (10 : ℚ) ^ (e + 8 - (g.length : Int)) := by
  induction k with
  | zero =>
    intro g hg _
    have : g = [] := List.length_eq_zero.1 (by omega)
    subst this
    refine ⟨[], rfl, rfl, ?_⟩
    intro z e
    simp [limbs_value_zeros, digits_value_nil]
  | succ k ih =>
    intro g hg hdig
    have htake : (g.take 8).length = 8 := by simp; omega
    have hdrop : (g.drop 8).length = 8 * k := by simp; omega
    obtain ⟨ls, hls, hlen, hval⟩ := ih (g.drop 8) hdrop
      (fun c hc => hdig c (List.mem_of_mem_drop hc))
    have hcast := lexical_cast_uint32_digits (g.take 8)
      (by intro h; rw [h] at htake; simp at htake)
      (fun c hc => hdig c (List.mem_of_mem_take hc)) (by omega)
    refine ⟨digits_value (g.take 8) :: ls, ?_, by simp [hlen], ?_⟩
    · simp only [rd_limbs, cpp_dec_float_elem_digits10, hcast, hls, Option.map_some']
    · intro z e
      rw [List.cons_append, cpp_dec_float_100.limbs_value, hval]
      have hsplit : digits_value g
          = digits_value (g.take 8) * 10 ^ (g.drop 8).length + digits_value (g.drop 8) := by
        conv_lhs => rw [← List.take_append_drop 8 g]
        rw [digits_value_append]
      have hscale := scale_pow (digits_value (g.take 8)) (g.drop 8).length e
      rw [hsplit]
      push_cast at hscale ⊢
      rw [add_mul, ← hscale]
      have he1 : e - 8 + 8 - ((g.drop 8).length : Int) = e - ((g.drop 8).length : Int) := by omega
      have he2 : e + 8 - (g.length : Int) = e - ((g.drop 8).length : Int) := by omega
      rw [he1, he2]


theorem rd_extract_spec (a b : List Char) (h1 : 1 ≤ a.length) (h8 : a.length ≤ 8)
    (ha : ∀ c ∈ a, c.isDigit = true) (hb : ∀ c ∈ b, c.isDigit = true)
    (hblen : b.length ≤ 113) :
    ∃ data, rd_extract (a ++ '.' :: b) = some data ∧
      ∀ e : Int, cpp_dec_float_100.limbs_value data e = pointed_value a b e := by
  unfold rd_extract
  rw [str_find_point a b ha]
  simp only [cpp_dec_float_elem_digits10]
  have hndec : (a ++ '.' :: b).length - 1 - a.length = b.length := by simp
  rw [hndec]
  generalize hcnt : (if b.length % 8 ≠ 0 then 8 - b.length % 8 else 0) = n_cnt
  have hpad : (b.length + n_cnt) % 8 = 0 ∧ b.length + n_cnt ≤ 120 := by
    subst hcnt
    split <;> omega
  have hstr1 : a ++ '.' :: b ++ List.replicate n_cnt '0'
      = a ++ '.' :: (b ++ List.replicate n_cnt '0') := by simp
  rw [hstr1]
  have hbp : ∀ c ∈ b ++ List.replicate n_cnt '0', c.isDigit = true := by
    intro c hc
    rcases List.mem_append.1 hc with hc | hc
    · exact hb c hc
    · rw [(List.mem_replicate.1 hc).2]; rfl
  have hbplen : (b ++ List.replicate n_cnt '0').length = b.length + n_cnt := by simp
  have hvalpad := fun e => pointed_value_pad a b n_cnt e
  generalize b ++ List.replicate n_cnt '0' = bp at hbp hbplen hvalpad ⊢
  have hmax : (cpp_dec_float_elem_number - 1) * 8 = 120 := by decide
  rw [hmax]
  have hstr2 : (if (a ++ '.' :: bp).length - a.length > 120
      then (a ++ '.' :: bp).take (a.length + 1 + 120) else a ++ '.' :: bp) = a ++ '.' :: bp := by
    split
    · apply List.take_of_length_le
      simp
      omega
    · rfl
  rw [hstr2]
  have htake : (a ++ '.' :: bp).take a.length = a := by
    rw [List.take_left']
    rfl
  have hdrop : (a ++ '.' :: bp).drop (a.length + 1) = bp := by
    have : a ++ '.' :: bp = (a ++ ['.']) ++ bp := by simp
    rw [this, List.drop_left']
    simp
  have hne : a ≠ [] := by
    intro h; rw [h] at h1; simp at h1
  rw [htake, hdrop, lexical_cast_uint32_digits a hne ha h8]
  simp only
  have hiend : ((a ++ '.' :: bp).length - (a.length + 1)) / 8 = bp.length / 8 := by
    simp
    congr 1
    omega
  rw [hiend]
  obtain ⟨ls, hls, hlslen, hval⟩ := rd_limbs_spec (bp.length / 8) bp (by omega) hbp
  rw [hls]
  simp only [Option.map_some']
  refine ⟨_, rfl, ?_⟩
  intro e
  rw [List.cons_append, cpp_dec_float_100.limbs_value, hval, ← hvalpad e]
  unfold pointed_value
  rw [digits_value_append]
  have hscale := scale_pow (digits_value a) bp.length e
  push_cast at hscale ⊢
  rw [add_mul, hscale]
  have he : e - 8 + 8 - (bp.length : Int) = e - (bp.length : Int) := by omega
  rw [he]

theorem rd_range_id (x : cpp_dec_float_100) (hlo : cpp_dec_float_min_exp10 < x.exp)
    (hhi : x.exp ≤ cpp_dec_float_max_exp10) : rd_range x = x := by
  unfold rd_range
  rw [if_neg (by omega), if_neg (by omega)]


theorem pointed_value_eq_rational (ip fp : List Char) :
    pointed_value ip fp 0 = decimal_numeral_rational ip fp := by
  unfold pointed_value decimal_numeral_rational
  rw [digits_value_append, ← digits_value_eq_number, ← digits_value_eq_number,
    zero_sub, zpow_neg, zpow_natCast]
  push_cast
  field_simp

theorem pointed_value_dropWhile (ip fp : List Char) (e : Int) :
    pointed_value (ip.dropWhile (fun c => c == '0')) fp e = pointed_value ip fp e := by
  obtain ⟨k, hk, -⟩ := dropWhile_zero_decomp ip
  unfold pointed_value
  conv_rhs => rw [hk, List.append_assoc, digits_value_zeros_append]

theorem rd_string_spec (ip fp : List Char) (hip : ip ≠ [])
    (hipd : ∀ c ∈ ip, c.isDigit = true) (hfpd : ∀ c ∈ fp, c.isDigit = true)
    (hlen : ip.length + fp.length ≤ 100) :
    ∃ v, rd_string (ip ++ '.' :: fp) = some v ∧ v.to_rat = some (pointed_value ip fp 0) := by
  have hchars : ∀ c ∈ ip ++ '.' :: fp, c.isDigit = true ∨ c = '.' := by
    intro c hc
    rcases List.mem_append.1 hc with hc | hc
    · exact Or.inl (hipd c hc)
    · rcases List.mem_cons.1 hc with hc | hc
      · exact Or.inr hc
      · exact Or.inl (hfpd c hc)
  have hfind : ∀ x : Char, x.isDigit = false → x ≠ '.' → str_find x (ip ++ '.' :: fp) = none := by
    intro x hx hxp
    apply str_find_none
    intro c hc
    rcases hchars c hc with h | h
    · exact digit_ne_of_not_digit c x h hx
    · rw [h]; exact fun h2 => hxp h2.symm
  have hexp : rd_exponent (ip ++ '.' :: fp) = some (0, ip ++ '.' :: fp) := by
    unfold rd_exponent
    rw [hfind 'e' (by decide) (by decide), hfind 'E' (by decide) (by decide)]
  obtain ⟨d, ds, rfl⟩ : ∃ d ds, ip = d :: ds := by
    cases ip with
    | nil => exact absurd rfl hip
    | cons d ds => exact ⟨d, ds, rfl⟩
  have hd : d.isDigit = true := hipd d (by simp)
  have hsign : rd_sign (d :: ds ++ '.' :: fp) = (false, d :: ds ++ '.' :: fp) := by
    have hminus : d ≠ '-' := digit_ne_of_not_digit d '-' hd (by decide)
    have hplus : d ≠ '+' := digit_ne_of_not_digit d '+' hd (by decide)
    rw [List.cons_append]
    unfold rd_sign
    split
    · rename_i r heq
      exact absurd (List.cons.inj heq).1 hminus
    · rename_i r heq
      exact absurd (List.cons.inj heq).1 hplus
    · rfl
  have hinf : rd_is_inf (d :: ds ++ '.' :: fp) = false := by
    have h1 : d ≠ 'i' := digit_ne_of_not_digit d 'i' hd (by decide)
    have h2 : d ≠ 'I' := digit_ne_of_not_digit d 'I' hd (by decide)
    simp [rd_is_inf, h1, h2]
  have hnan : rd_is_nan (d :: ds ++ '.' :: fp) = false := by
    have h1 : d ≠ 'n' := digit_ne_of_not_digit d 'n' hd (by decide)
    have h2 : d ≠ 'N' := digit_ne_of_not_digit d 'N' hd (by decide)
    simp [rd_is_nan, h1, h2]
  have hzeros : (d :: ds ++ '.' :: fp).dropWhile (fun c => c == '0')
      = (d :: ds).dropWhile (fun c => c == '0') ++ '.' :: fp :=
    dropWhile_append_stop _ _ _ (by decide)
  have hipd2 : ∀ c ∈ (d :: ds).dropWhile (fun c => c == '0'), c.isDigit = true :=
    fun c hc => hipd c (mem_of_mem_dropWhile _ c hc)
  have hlen2 : ((d :: ds).dropWhile (fun c => c == '0')).length ≤ (d :: ds).length :=
    (List.dropWhile_sublist _).length_le
  have hvalz := pointed_value_dropWhile (d :: ds) fp 0
  unfold rd_string
  rw [hexp]
  simp only [hsign, hinf, hnan, hzeros, Bool.false_eq_true, if_false]
  generalize (d :: ds).dropWhile (fun c => c == '0') = a at hipd2 hlen2 hvalz ⊢
  rw [if_neg (by simp)]
  rcases rd_point_spec a fp hipd2 hfpd with ⟨hnone, hzero⟩ | ⟨A, B, e, hsome, hA, hAd, hBd, hAB, he1, he2, hv⟩
  · rw [hnone]
    refine ⟨cpp_dec_float_100.zero, rfl, ?_⟩
    rw [← hvalz, hzero]
    simp [cpp_dec_float_100.to_rat, cpp_dec_float_100.zero, limbs_value_zeros]
  · rw [hsome]
    obtain ⟨A2, B2, e2, hshift, hA2, hA2d, hB2d, hAB2, he3, he4, hv2⟩ :=
      rd_shift_spec A B e hA hAd hBd
    obtain ⟨A3, B3, e3, hcut, hA3lo, hA3hi, hA3d, hB3d, hAB3, he5, he6, hv3⟩ :=
      rd_cut_spec A2 B2 e2 hA2 hA2d hB2d
    obtain ⟨data, hdata, hlimbs⟩ := rd_extract_spec A3 B3 hA3lo hA3hi hA3d hB3d (by omega)
    simp only [hshift, hcut, hdata]
    have hA2len : A2.length ≤ 107 := by omega
    rw [rd_range_id _ (by simp only [cpp_dec_float_min_exp10]; omega)
      (by simp only [cpp_dec_float_max_exp10]; omega)]
    refine ⟨_, rfl, ?_⟩
    simp only [cpp_dec_float_100.to_rat, Bool.false_eq_true, if_false, one_mul, hlimbs, hv3, hv2,
      hv, hvalz]


theorem get_dec_value_of_rd_string (tok : token) (val : String) (v : cpp_dec_float_100)
    (h : rd_string (c_str val) = some v) :
    (literal_expression.new tok DECIMAL_EXPR val).get_dec_value = .ok v := by
  simp only [literal_expression.get_dec_value, literal_expression.new, if_true, h]

set_option maxRecDepth 100000 in
theorem rd_string_long_numeral :
    rd_string ('1' :: '.' :: (List.replicate 199 '0' ++ ['1']))
      = some ⟨1 :: List.replicate 15 0, 0, false, .cpp_dec_float_finite⟩ := by
  rfl

/-- C10, the claim as stated fails: the decimal numeral made of "1.", 199 zeros and a
final "1" has 201 significant digits and denotes `1 + 10 ^ (-200)`, but `get_dec_value`
returns a value that is exactly `1`: the digits beyond the capacity of
`cpp_dec_float_100` are cut off. -/
theorem get_dec_value_precision_counterexample :
    ∃ v, (literal_expression.new sample_token DECIMAL_EXPR
        (String.mk ('1' :: '.' :: (List.replicate 199 '0' ++ ['1'])))).get_dec_value = .ok v ∧
      v.to_rat = some 1 ∧
      decimal_numeral_rational ['1'] (List.replicate 199 '0' ++ ['1']) ≠ 1 := by
  have hzeros : ∀ c ∈ List.replicate 199 '0' ++ ['1'], c.isDigit = true := by
    intro c hc
    rcases List.mem_append.1 hc with hc | hc
    · rw [(List.mem_replicate.1 hc).2]; rfl
    · rw [List.mem_singleton.1 hc]; rfl
  have hc : c_str (String.mk (['1', '.'] ++ (List.replicate 199 '0' ++ ['1'])))
      = ['1', '.'] ++ (List.replicate 199 '0' ++ ['1']) :=
    c_str_of_digits _ _ (by decide) hzeros
  refine ⟨⟨1 :: List.replicate 15 0, 0, false, .cpp_dec_float_finite⟩, ?_, ?_, ?_⟩
  · apply get_dec_value_of_rd_string
    have hs : '1' :: '.' :: (List.replicate 199 '0' ++ ['1'])
        = ['1', '.'] ++ (List.replicate 199 '0' ++ ['1']) := rfl
    rw [hs, hc, ← hs, rd_string_long_numeral]
  · simp [cpp_dec_float_100.to_rat, cpp_dec_float_100.limbs_value, limbs_value_zeros]
  · have h1 : decimal_digits_number ['1'] = 1 := by decide
    have h2 : decimal_digits_number (List.replicate 199 '0' ++ ['1']) = 1 := by
      rw [← digits_value_eq_number, digits_value_zeros_append]
      rfl
    have h3 : (List.replicate 199 '0' ++ ['1']).length = 200 := by
      rw [List.length_append, List.length_replicate]
      rfl
    unfold decimal_numeral_rational
    rw [h1, h2, h3]
    norm_num

theorem get_dec_value_of_kind_and_text (l : literal_expression) (v : cpp_dec_float_100)
    (hkind : l.get_expression_type = DECIMAL_EXPR)
    (h : rd_string (c_str l.get_value) = some v) : l.get_dec_value = .ok v := by
  have hk : l.m_expr_type = DECIMAL_EXPR := hkind
  have hv : rd_string (c_str l.m_val) = some v := h
  simp only [literal_expression.get_dec_value, hk, if_true, hv]

/-- C10, as amended: for every literal of kind `DECIMAL_EXPR`, whatever its token, type
instance and from-parser flag, whose text is a decimal numeral (a non-empty run of
digits, a point, a run of digits) of at most 100 digits, `get_dec_value` returns a
finite value exactly equal to the rational number the text denotes. -/
theorem get_dec_value_exact_up_to_100_digits (l : literal_expression) (ip fp : List Char)
    (hkind : l.get_expression_type = DECIMAL_EXPR)
    (htext : l.get_value = String.mk (ip ++ '.' :: fp))
    (hip : ip ≠ []) (hipd : ∀ c ∈ ip, c.isDigit = true) (hfpd : ∀ c ∈ fp, c.isDigit = true)
    (hlen : ip.length + fp.length ≤ 100) :
    ∃ v, l.get_dec_value = .ok v ∧ v.to_rat = some (decimal_numeral_rational ip fp) := by
  obtain ⟨v, hv, hval⟩ := rd_string_spec ip fp hip hipd hfpd hlen
  refine ⟨v, ?_, ?_⟩
  · have hc : c_str (String.mk ((ip ++ ['.']) ++ fp)) = (ip ++ ['.']) ++ fp := by
      apply c_str_of_digits _ _ _ hfpd
      intro c hc
      rcases List.mem_append.1 hc with hc | hc
      · exact (isDigit_not_special c (hipd c hc)).1
      · rw [List.mem_singleton.1 hc]; decide
    have hs : (ip ++ ['.']) ++ fp = ip ++ '.' :: fp := by simp
    rw [hs] at hc
    apply get_dec_value_of_kind_and_text l v hkind
    rw [htext, hc, hv]
  · rw [hval, pointed_value_eq_rational]

/-- Witness of the amended C10 on a literal with the text "1.5", which denotes 3/2,
that carries the decimal instance set from source. -/
theorem get_dec_value_exact_up_to_100_digits_witness :
    ∃ v, ((literal_expression.new sample_token DECIMAL_EXPR "1.5").set_type_instance_from
        builtin_registry.dec_instance true).get_dec_value = .ok v ∧
      v.to_rat = some (decimal_numeral_rational ['1'] ['5']) :=
  get_dec_value_exact_up_to_100_digits
    ((literal_expression.new sample_token DECIMAL_EXPR "1.5").set_type_instance_from
      builtin_registry.dec_instance true) ['1'] ['5'] rfl rfl (by decide) (by decide)
    (by decide) (by decide)

/-! ## The literal node: text, fields and copies -/

/-- C11: for every token and every string `s`, the literal constructed with kind
`STRING_EXPR` and text `s` returns exactly `s` from `get_string_value`, also for the
empty string and for a string that looks like a number, and `get_value` returns
exactly `s` for a literal of any kind. -/
theorem get_string_value_is_stored_text (tok : token) (s : String) :
    (literal_expression.new tok STRING_EXPR s).get_string_value = .ok s ∧
    (∀ k : literal_expression_type, (literal_expression.new tok k s).get_value = s) ∧
    (literal_expression.new tok STRING_EXPR "").get_string_value = .ok "" ∧
    (literal_expression.new tok STRING_EXPR "42").get_string_value = .ok "42" :=
  ⟨rfl, fun _ => rfl, rfl, rfl⟩

theorem strong_compare_name (a b : type_instance)
    (h : type_instance_strong_compare a b = true) : a.get_name = b.get_name := by
  rw [(strong_compare_iff a b).1 h]

/-- C12, the claim as stated fails: an identifier reference and a literal that carry
the same type instance, the bool one, are not routed alike by `avl_cast`, nor by
`avl_string_cast`: the identifier reaches the boolean handler, the literal is
rejected. -/
theorem routing_depends_on_shape_counterexample :
    type_instance_strong_compare
      (expr.identifier ⟨sample_token, builtin_registry.bool_instance⟩).expr_type_instance
      (expr.literal ((literal_expression.new sample_token INTEGER_EXPR "7").set_type_instance
        builtin_registry.bool_instance)).expr_type_instance = true ∧
    avl_cast builtin_registry probe_handlers
      [.identifier ⟨sample_token, builtin_registry.bool_instance⟩] star_instance
      = .ok (.other "bool_cast" star_instance) ∧
    avl_cast builtin_registry probe_handlers
      [.literal ((literal_expression.new sample_token INTEGER_EXPR "7").set_type_instance
        builtin_registry.bool_instance)] star_instance
      = .error (.invalid_call cast_unsupported) ∧
    avl_string_cast builtin_registry probe_handlers
      [.identifier ⟨sample_token, builtin_registry.bool_instance⟩]
      = .ok (.other "bool_string" star_instance) ∧
    avl_string_cast builtin_registry probe_handlers
      [.literal ((literal_expression.new sample_token INTEGER_EXPR "7").set_type_instance
        builtin_registry.bool_instance)]
      = .error (.invalid_call string_unsupported) :=
  ⟨rfl, rfl, rfl, rfl, rfl⟩

/-- C12, as amended: routing is deterministic in the entry point, the shape of the
argument and its type instance.  For each of `avl_cast`, `avl_string_cast` and
`avl_float_cast` and any two single arguments of the same shape (both identifier
references, both literals, or both neither) that carry strongly equal type
instances, one routing outcome, the same handler or the same failure, accounts for
both invocations, whatever the handlers and the target type are. -/
theorem routing_deterministic_per_shape (R : registry) (a1 a2 : expr)
    (hid : a1.is_identifier_expression = a2.is_identifier_expression)
    (hlit : a1.is_literal_expression = a2.is_literal_expression)
    (hty : type_instance_strong_compare a1.expr_type_instance a2.expr_type_instance = true) :
    (∃ r : routing, ∀ (H : handlers) (ret_instance : type_instance),
      avl_cast R H [a1] ret_instance = r.run H [a1] ret_instance ∧
      avl_cast R H [a2] ret_instance = r.run H [a2] ret_instance) ∧
    (∃ r : routing, ∀ (H : handlers) (ret_instance : type_instance),
      avl_string_cast R H [a1] = r.run H [a1] ret_instance ∧
      avl_string_cast R H [a2] = r.run H [a2] ret_instance) ∧
    (∃ r : routing, ∀ (H : handlers) (ret_instance : type_instance),
      avl_float_cast R H [a1] = r.run H [a1] ret_instance ∧
      avl_float_cast R H [a2] = r.run H [a2] ret_instance) := by
  have heq := (strong_compare_iff _ _).1 hty
  cases a1 with
  | identifier e1 =>
    cases a2 with
    | identifier e2 =>
      have he : e1.get_type_instance = e2.get_type_instance := heq
      refine ⟨?_, ?_, ⟨.failure (.invalid_call float_unsupported), fun _ _ => ⟨rfl, rfl⟩⟩⟩
      · by_cases hb : type_instance_strong_compare e2.get_type_instance R.bool_instance = true
        · exact ⟨.bool_cast, fun H ret => by simp [avl_cast, routing.run, he, hb]⟩
        · exact ⟨.failure (.invalid_call cast_unsupported),
            fun H ret => by simp [avl_cast, routing.run, he, hb]⟩
      · by_cases hb : type_instance_strong_compare e2.get_type_instance R.bool_instance = true
        · exact ⟨.bool_string, fun H ret => by simp [avl_string_cast, routing.run, he, hb]⟩
        · exact ⟨.failure (.invalid_call string_unsupported),
            fun H ret => by simp [avl_string_cast, routing.run, he, hb]⟩
    | literal l2 => simp [expr.is_identifier_expression] at hid
    | other t2 i2 => simp [expr.is_identifier_expression] at hid
  | literal l1 =>
    cases a2 with
    | identifier e2 => simp [expr.is_identifier_expression] at hid
    | literal l2 =>
      have he : l1.get_type_instance = l2.get_type_instance := heq
      by_cases hi : type_instance_strong_compare l2.get_type_instance R.int_instance = true
      · exact ⟨⟨.int_cast, fun H ret => by simp [avl_cast, routing.run, he, hi]⟩,
          ⟨.int_string, fun H ret => by simp [avl_string_cast, routing.run, he, hi]⟩,
          ⟨.int_float, fun H ret => by simp [avl_float_cast, routing.run, he, hi]⟩⟩
      · refine ⟨?_, ?_, ⟨.failure (.invalid_call float_unsupported),
          fun H ret => by simp [avl_float_cast, routing.run, he, hi]⟩⟩
        · by_cases hd : type_instance_strong_compare l2.get_type_instance R.dec_instance = true
          · exact ⟨.dec_cast, fun H ret => by simp [avl_cast, routing.run, he, hi, hd]⟩
          · by_cases hf :
                type_instance_strong_compare l2.get_type_instance R.float_instance = true
            · exact ⟨.float_cast, fun H ret => by simp [avl_cast, routing.run, he, hi, hd, hf]⟩
            · exact ⟨.failure (.invalid_call cast_unsupported),
                fun H ret => by simp [avl_cast, routing.run, he, hi, hd, hf]⟩
        · by_cases hd : type_instance_strong_compare l2.get_type_instance R.dec_instance = true
          · exact ⟨.dec_string, fun H ret => by simp [avl_string_cast, routing.run, he, hi, hd]⟩
          · by_cases hf :
                type_instance_strong_compare l2.get_type_instance R.float_instance = true
            · exact ⟨.float_string,
                fun H ret => by simp [avl_string_cast, routing.run, he, hi, hd, hf]⟩
            · exact ⟨.failure (.invalid_call string_unsupported),
                fun H ret => by simp [avl_string_cast, routing.run, he, hi, hd, hf]⟩
    | other t2 i2 => simp [expr.is_literal_expression] at hlit
  | other t1 i1 =>
    cases a2 with
    | identifier e2 => simp [expr.is_identifier_expression] at hid
    | literal l2 => simp [expr.is_literal_expression] at hlit
    | other t2 i2 =>
      exact ⟨⟨.failure (.invalid_call cast_unsupported), fun _ _ => ⟨rfl, rfl⟩⟩,
        ⟨.failure (.invalid_call string_unsupported), fun _ _ => ⟨rfl, rfl⟩⟩,
        ⟨.failure (.invalid_call float_unsupported), fun _ _ => ⟨rfl, rfl⟩⟩⟩

/-- Witness of the amended C12 on two int literals that differ in kind and text. -/
theorem routing_deterministic_per_shape_witness :
    (∃ r : routing, ∀ (H : handlers) (ret_instance : type_instance),
      avl_cast builtin_registry H
        [.literal ((literal_expression.new sample_token INTEGER_EXPR "7").set_type_instance
          builtin_registry.int_instance)] ret_instance
        = r.run H
          [.literal ((literal_expression.new sample_token INTEGER_EXPR "7").set_type_instance
            builtin_registry.int_instance)] ret_instance ∧
      avl_cast builtin_registry H
        [.literal ((literal_expression.new sample_token STRING_EXPR "x").set_type_instance
          builtin_registry.int_instance)] ret_instance
        = r.run H
          [.literal ((literal_expression.new sample_token STRING_EXPR "x").set_type_instance
            builtin_registry.int_instance)] ret_instance) :=
  (routing_deterministic_per_shape builtin_registry
    (.literal ((literal_expression.new sample_token INTEGER_EXPR "7").set_type_instance
      builtin_registry.int_instance))
    (.literal ((literal_expression.new sample_token STRING_EXPR "x").set_type_instance
      builtin_registry.int_instance)) rfl rfl rfl).1

/-- C13: an unresolved type instance reaching dispatch is rejected.  For a registry
whose bool, int, decimal and float instances are resolved (none is named "*"), each
of `avl_cast`, `avl_string_cast` and `avl_float_cast` throws `invalid_call` on every
single identifier or literal argument whose type instance is named "*", whatever the
handlers are. -/
theorem dispatch_rejects_unresolved_instance (R : registry) (H : handlers)
    (e : identifier_expression) (l : literal_expression) (ret_instance : type_instance)
    (hbool : R.bool_instance.get_name ≠ "*") (hint : R.int_instance.get_name ≠ "*")
    (hdec : R.dec_instance.get_name ≠ "*") (hfloat : R.float_instance.get_name ≠ "*")
    (he : e.get_type_instance.get_name = "*") (hl : l.get_type_instance.get_name = "*") :
    avl_cast R H [.identifier e] ret_instance = .error (.invalid_call cast_unsupported) ∧
    avl_cast R H [.literal l] ret_instance = .error (.invalid_call cast_unsupported) ∧
    avl_string_cast R H [.identifier e] = .error (.invalid_call string_unsupported) ∧
    avl_string_cast R H [.literal l] = .error (.invalid_call string_unsupported) ∧
    avl_float_cast R H [.identifier e] = .error (.invalid_call float_unsupported) ∧
    avl_float_cast R H [.literal l] = .error (.invalid_call float_unsupported) := by
  have hne : ∀ (a b : type_instance), a.get_name = "*" → b.get_name ≠ "*" →
      type_instance_strong_compare a b = false := by
    intro a b ha hb
    cases hc : type_instance_strong_compare a b with
    | false => rfl
    | true => exact absurd ((strong_compare_name a b hc).symm.trans ha) hb
  have h1 := hne _ _ he hbool
  have h2 := hne _ _ hl hint
  have h3 := hne _ _ hl hdec
  have h4 := hne _ _ hl hfloat
  refine ⟨?_, ?_, ?_, ?_, rfl, ?_⟩
  · simp [avl_cast, h1]
  · simp [avl_cast, h2, h3, h4]
  · simp [avl_string_cast, h1]
  · simp [avl_string_cast, h2, h3, h4]
  · simp [avl_float_cast, h2, h3]

/-- Witness of C13 on the builtin registry, an identifier carrying the star instance
and a freshly constructed literal. -/
theorem dispatch_rejects_unresolved_instance_witness :
    avl_cast builtin_registry probe_handlers
      [.identifier ⟨sample_token, star_instance⟩] star_instance
      = .error (.invalid_call cast_unsupported) ∧
    avl_cast builtin_registry probe_handlers
      [.literal (literal_expression.new sample_token INTEGER_EXPR "7")] star_instance
      = .error (.invalid_call cast_unsupported) ∧
    avl_string_cast builtin_registry probe_handlers
      [.identifier ⟨sample_token, star_instance⟩]
      = .error (.invalid_call string_unsupported) ∧
    avl_string_cast builtin_registry probe_handlers
      [.literal (literal_expression.new sample_token INTEGER_EXPR "7")]
      = .error (.invalid_call string_unsupported) ∧
    avl_float_cast builtin_registry probe_handlers
      [.identifier ⟨sample_token, star_instance⟩]
      = .error (.invalid_call float_unsupported) ∧
    avl_float_cast builtin_registry probe_handlers
      [.literal (literal_expression.new sample_token INTEGER_EXPR "7")]
      = .error (.invalid_call float_unsupported) :=
  dispatch_rejects_unresolved_instance builtin_registry probe_handlers
    ⟨sample_token, star_instance⟩ (literal_expression.new sample_token INTEGER_EXPR "7")
    star_instance (by decide) (by decide) (by decide) (by decide) rfl rfl

/-- C14, the claim as stated fails: the assignment copy operator changes the kind
tag.  An `INTEGER_EXPR` literal assigned from a `STRING_EXPR` literal reports
`STRING_EXPR` afterwards. -/
theorem assignment_changes_kind_counterexample :
    (literal_expression.new sample_token INTEGER_EXPR "7").get_expression_type = INTEGER_EXPR ∧
    ((member_call.assign (literal_expression.new sample_token STRING_EXPR "x")).after
      (literal_expression.new sample_token INTEGER_EXPR "7")).get_expression_type
      = STRING_EXPR ∧
    ((member_call.assign (literal_expression.new sample_token STRING_EXPR "x")).after
      (literal_expression.new sample_token INTEGER_EXPR "7")).get_expression_type
      ≠ (literal_expression.new sample_token INTEGER_EXPR "7").get_expression_type :=
  ⟨rfl, rfl, by decide⟩

/-- C14, as amended: no operation of the public interface other than the assignment
copy operator changes the kind tag.  After either overload of `set_type_instance`,
after every getter and after every decode accessor `get_expression_type` is what it
was before; the assignment copy operator makes it the kind tag of the literal
assigned from. -/
theorem kind_tag_changes_by_assignment_only (l : literal_expression) (m : member_call)
    (hm : m.is_assignment = false) :
    (m.after l).get_expression_type = l.get_expression_type ∧
    (∀ lit_expr : literal_expression,
      ((member_call.assign lit_expr).after l).get_expression_type
        = lit_expr.get_expression_type) := by
  refine ⟨?_, fun _ => rfl⟩
  cases m <;> first | rfl | simp [member_call.is_assignment] at hm

/-- Witness of the amended C14 on `set_type_instance` with the int instance. -/
theorem kind_tag_changes_by_assignment_only_witness :
    ((member_call.set_type_instance builtin_registry.int_instance).after
      (literal_expression.new sample_token INTEGER_EXPR "7")).get_expression_type
      = (literal_expression.new sample_token INTEGER_EXPR "7").get_expression_type ∧
    (∀ lit_expr : literal_expression,
      ((member_call.assign lit_expr).after
        (literal_expression.new sample_token INTEGER_EXPR "7")).get_expression_type
        = lit_expr.get_expression_type) :=
  kind_tag_changes_by_assignment_only (literal_expression.new sample_token INTEGER_EXPR "7")
    (member_call.set_type_instance builtin_registry.int_instance) rfl

/-- C15: `has_type_instance` returns false exactly when the name of the node's type
instance is "*" and true for every other name; after `set_type_instance` with an
instance `i`, in either overload, it returns true if and only if the name of `i` is
not "*". -/
theorem has_type_instance_iff_not_star (l : literal_expression) (i : type_instance)
    (b : Bool) :
    (l.has_type_instance = false ↔ l.get_type_instance.get_name = "*") ∧
    (l.has_type_instance = true ↔ l.get_type_instance.get_name ≠ "*") ∧
    ((l.set_type_instance i).has_type_instance = true ↔ i.get_name ≠ "*") ∧
    ((l.set_type_instance_from i b).has_type_instance = true ↔ i.get_name ≠ "*") := by
  refine ⟨?_, ?_, ?_, ?_⟩ <;>
    simp [literal_expression.has_type_instance, literal_expression.get_type_instance,
      literal_expression.set_type_instance, literal_expression.set_type_instance_from]

/-- C16: the node produced by the copy constructor from `L`, and any node after
assignment from `L`, has the token, type instance, from-parser flag, kind tag and text
of `L`, so that every getter and every decode accessor gives on it the result, or
the failure, it gives on `L`. -/
theorem copy_duplicates_every_field {double : Type} (atof : List Char → double)
    (L target : literal_expression) :
    L.copy = L ∧ target.assign L = L ∧
    (L.copy.get_token = L.get_token ∧ L.copy.get_type_instance = L.get_type_instance ∧
      L.copy.type_instance_from_parser_flag = L.type_instance_from_parser_flag ∧
      L.copy.get_expression_type = L.get_expression_type ∧ L.copy.get_value = L.get_value ∧
      L.copy.has_type_instance = L.has_type_instance ∧
      L.copy.get_int_value = L.get_int_value ∧ L.copy.get_dec_value = L.get_dec_value ∧
      L.copy.get_float_value atof = L.get_float_value atof ∧
      L.copy.get_string_value = L.get_string_value) ∧
    ((target.assign L).get_token = L.get_token ∧
      (target.assign L).get_type_instance = L.get_type_instance ∧
      (target.assign L).type_instance_from_parser_flag = L.type_instance_from_parser_flag ∧
      (target.assign L).get_expression_type = L.get_expression_type ∧
      (target.assign L).get_value = L.get_value ∧
      (target.assign L).has_type_instance = L.has_type_instance ∧
      (target.assign L).get_int_value = L.get_int_value ∧
      (target.assign L).get_dec_value = L.get_dec_value ∧
      (target.assign L).get_float_value atof = L.get_float_value atof ∧
      (target.assign L).get_string_value = L.get_string_value) := by
  have hc : L.copy = L := rfl
  have ha : target.assign L = L := rfl
  rw [hc, ha]
  exact ⟨rfl, rfl, ⟨rfl, rfl, rfl, rfl, rfl, rfl, rfl, rfl, rfl, rfl⟩,
    ⟨rfl, rfl, rfl, rfl, rfl, rfl, rfl, rfl, rfl, rfl⟩⟩

/-! ## The order of the candidates -/

theorem candidate_scan_perm (inst : type_instance) (no_match : routing)
    {c1 c2 : List (type_instance × routing)} (hp : c1.Perm c2)
    (huniq : ∀ a ∈ c1, ∀ b ∈ c1, type_instance_strong_compare inst a.1 = true →
      type_instance_strong_compare inst b.1 = true → a.2 = b.2) :
    candidate_scan inst no_match c1 = candidate_scan inst no_match c2 := by
  induction hp with
  | nil => rfl
  | cons x _ ih =>
    obtain ⟨t, r⟩ := x
    simp only [candidate_scan]
    rw [ih (fun a ha b hb => huniq a (List.mem_cons_of_mem _ ha) b (List.mem_cons_of_mem _ hb))]
  | swap x y l =>
    obtain ⟨tx, rx⟩ := x
    obtain ⟨ty, ry⟩ := y
    simp only [candidate_scan]
    by_cases hx : type_instance_strong_compare inst tx = true
    · by_cases hy : type_instance_strong_compare inst ty = true
      · have := huniq (ty, ry) (by simp) (tx, rx) (by simp) hy hx
        simp only [hx, hy, if_true]
        exact this
      · simp [hx, hy]
    · simp [hx]
  | trans h1 _ ih1 ih2 =>
    rw [ih1 huniq]
    exact ih2 (fun a ha b hb => huniq a (h1.mem_iff.2 ha) b (h1.mem_iff.2 hb))

/-- C18: when the int, decimal and float registry instances are pairwise not strongly
equal, at most one candidate test of the literal branch holds for any argument type
instance, and scanning the three candidates in any order (any permutation of int,
decimal, float) chooses the handler, or the failure, that the first-match scan of
`avl_cast`, and of `avl_string_cast`, chooses. -/
theorem candidate_order_irrelevant (R : registry) (H : handlers) (l : literal_expression)
    (ret_instance : type_instance) (cs ss : List (type_instance × routing))
    (hid : type_instance_strong_compare R.int_instance R.dec_instance = false)
    (hif : type_instance_strong_compare R.int_instance R.float_instance = false)
    (hdf : type_instance_strong_compare R.dec_instance R.float_instance = false)
    (hcs : cs.Perm [(R.int_instance, routing.int_cast), (R.dec_instance, routing.dec_cast),
      (R.float_instance, routing.float_cast)])
    (hss : ss.Perm [(R.int_instance, routing.int_string), (R.dec_instance, routing.dec_string),
      (R.float_instance, routing.float_string)]) :
    (∀ inst : type_instance,
      ¬ (type_instance_strong_compare inst R.int_instance = true ∧
          type_instance_strong_compare inst R.dec_instance = true) ∧
      ¬ (type_instance_strong_compare inst R.int_instance = true ∧
          type_instance_strong_compare inst R.float_instance = true) ∧
      ¬ (type_instance_strong_compare inst R.dec_instance = true ∧
          type_instance_strong_compare inst R.float_instance = true)) ∧
    avl_cast R H [.literal l] ret_instance
      = (candidate_scan l.get_type_instance (.failure (.invalid_call cast_unsupported)) cs).run
          H [.literal l] ret_instance ∧
    avl_string_cast R H [.literal l]
      = (candidate_scan l.get_type_instance (.failure (.invalid_call string_unsupported)) ss).run
          H [.literal l] ret_instance := by
  have hexcl : ∀ (inst a b : type_instance), type_instance_strong_compare a b = false →
      ¬ (type_instance_strong_compare inst a = true ∧
        type_instance_strong_compare inst b = true) := by
    intro inst a b hab ⟨ha, hb⟩
    have h1 := (strong_compare_iff inst a).1 ha
    have h2 := (strong_compare_iff inst b).1 hb
    rw [← h1, ← h2, strong_compare_refl] at hab
    cases hab
  have hone : ∀ inst : type_instance,
      ¬ (type_instance_strong_compare inst R.int_instance = true ∧
          type_instance_strong_compare inst R.dec_instance = true) ∧
      ¬ (type_instance_strong_compare inst R.int_instance = true ∧
          type_instance_strong_compare inst R.float_instance = true) ∧
      ¬ (type_instance_strong_compare inst R.dec_instance = true ∧
          type_instance_strong_compare inst R.float_instance = true) :=
    fun inst => ⟨hexcl inst _ _ hid, hexcl inst _ _ hif, hexcl inst _ _ hdf⟩
  have huniq : ∀ (r1 r2 r3 : routing),
      ∀ a ∈ [(R.int_instance, r1), (R.dec_instance, r2), (R.float_instance, r3)],
      ∀ b ∈ [(R.int_instance, r1), (R.dec_instance, r2), (R.float_instance, r3)],
      type_instance_strong_compare l.get_type_instance a.1 = true →
      type_instance_strong_compare l.get_type_instance b.1 = true → a.2 = b.2 := by
    intro r1 r2 r3 a ha b hb hma hmb
    obtain ⟨h1, h2, h3⟩ := hone l.get_type_instance
    simp only [List.mem_cons, List.mem_singleton, List.not_mem_nil, or_false] at ha hb
    rcases ha with rfl | rfl | rfl <;> rcases hb with rfl | rfl | rfl <;>
      dsimp only at hma hmb ⊢
    · exact absurd ⟨hma, hmb⟩ h1
    · exact absurd ⟨hma, hmb⟩ h2
    · exact absurd ⟨hmb, hma⟩ h1
    · exact absurd ⟨hma, hmb⟩ h3
    · exact absurd ⟨hmb, hma⟩ h2
    · exact absurd ⟨hmb, hma⟩ h3
  refine ⟨hone, ?_, ?_⟩
  · rw [← candidate_scan_perm l.get_type_instance _ hcs.symm (huniq _ _ _)]
    simp only [avl_cast, candidate_scan]
    split <;> [rfl; (split <;> [rfl; (split <;> rfl)])]
  · rw [← candidate_scan_perm l.get_type_instance _ hss.symm (huniq _ _ _)]
    simp only [avl_string_cast, candidate_scan]
    split <;> [rfl; (split <;> [rfl; (split <;> rfl)])]

/-- Witness of C18 on the builtin registry, an int literal and the candidates taken in
the order float, int, decimal. -/
theorem candidate_order_irrelevant_witness :
    avl_cast builtin_registry probe_handlers
      [.literal ((literal_expression.new sample_token INTEGER_EXPR "7").set_type_instance
        builtin_registry.int_instance)] star_instance
      = (candidate_scan builtin_registry.int_instance
          (.failure (.invalid_call cast_unsupported))
          [(builtin_registry.float_instance, routing.float_cast),
           (builtin_registry.int_instance, routing.int_cast),
           (builtin_registry.dec_instance, routing.dec_cast)]).run probe_handlers
          [.literal ((literal_expression.new sample_token INTEGER_EXPR "7").set_type_instance
            builtin_registry.int_instance)] star_instance :=
  (candidate_order_irrelevant builtin_registry probe_handlers
    ((literal_expression.new sample_token INTEGER_EXPR "7").set_type_instance
      builtin_registry.int_instance) star_instance
    [(builtin_registry.float_instance, routing.float_cast),
     (builtin_registry.int_instance, routing.int_cast),
     (builtin_registry.dec_instance, routing.dec_cast)]
    [(builtin_registry.float_instance, routing.float_string),
     (builtin_registry.int_instance, routing.int_string),
     (builtin_registry.dec_instance, routing.dec_string)]
    rfl rfl rfl
    ((List.Perm.swap _ _ _).trans ((List.Perm.swap _ _ _).cons _))
    ((List.Perm.swap _ _ _).trans ((List.Perm.swap _ _ _).cons _))).2.1

/-! ## Frame properties of the literal node -/

/-- C19: decoding is a function of the kind tag and the text alone.  Each decode
accessor leaves the five fields of the node as they are, a second call of the same
accessor gives the result of the first, two nodes that agree on kind tag and text
decode alike whatever their token, type instance and from-parser flag are, and
`set_type_instance`, in either overload, changes the result of no decode accessor. -/
theorem decode_depends_on_kind_and_text {double : Type} (atof : List Char → double)
    (l l2 : literal_expression) (i : type_instance) (b : Bool) :
    (member_call.get_int_value.after l = l ∧ member_call.get_dec_value.after l = l ∧
      member_call.get_float_value.after l = l ∧ member_call.get_string_value.after l = l) ∧
    ((member_call.get_int_value.after l).get_int_value = l.get_int_value ∧
      (member_call.get_dec_value.after l).get_dec_value = l.get_dec_value ∧
      (member_call.get_float_value.after l).get_float_value atof = l.get_float_value atof ∧
      (member_call.get_string_value.after l).get_string_value = l.get_string_value) ∧
    (l.get_expression_type = l2.get_expression_type → l.get_value = l2.get_value →
      l.get_int_value = l2.get_int_value ∧ l.get_dec_value = l2.get_dec_value ∧
      l.get_float_value atof = l2.get_float_value atof ∧
      l.get_string_value = l2.get_string_value) ∧
    ((l.set_type_instance i).get_int_value = l.get_int_value ∧
      (l.set_type_instance i).get_dec_value = l.get_dec_value ∧
      (l.set_type_instance i).get_float_value atof = l.get_float_value atof ∧
      (l.set_type_instance i).get_string_value = l.get_string_value) ∧
    ((l.set_type_instance_from i b).get_int_value = l.get_int_value ∧
      (l.set_type_instance_from i b).get_dec_value = l.get_dec_value ∧
      (l.set_type_instance_from i b).get_float_value atof = l.get_float_value atof ∧
      (l.set_type_instance_from i b).get_string_value = l.get_string_value) := by
  refine ⟨⟨rfl, rfl, rfl, rfl⟩, ⟨rfl, rfl, rfl, rfl⟩, ?_, ⟨rfl, rfl, rfl, rfl⟩,
    ⟨rfl, rfl, rfl, rfl⟩⟩
  intro hk hv
  have hk2 : l.m_expr_type = l2.m_expr_type := hk
  have hv2 : l.m_val = l2.m_val := hv
  simp only [literal_expression.get_int_value, literal_expression.get_dec_value,
    literal_expression.get_float_value, literal_expression.get_string_value, hk2, hv2,
    and_self]

/-- C20: attaching a type changes only the type fields.  `set_type_instance(i)` makes
`get_type_instance` return `i` and leaves the token, the kind tag, the text and the
from-parser flag as they are; `set_type_instance(i, b)` makes `get_type_instance`
return `i` and `type_instance_from_parser` return `b` and leaves the token, the kind
tag and the text as they are. -/
theorem set_type_instance_frame (l : literal_expression) (i : type_instance) (b : Bool) :
    ((member_call.set_type_instance i).after l).get_type_instance = i ∧
    ((member_call.set_type_instance i).after l).get_token = l.get_token ∧
    ((member_call.set_type_instance i).after l).get_expression_type
      = l.get_expression_type ∧
    ((member_call.set_type_instance i).after l).get_value = l.get_value ∧
    ((member_call.set_type_instance i).after l).type_instance_from_parser_flag
      = l.type_instance_from_parser_flag ∧
    ((member_call.set_type_instance_from i b).after l).get_type_instance = i ∧
    ((member_call.set_type_instance_from i b).after l).type_instance_from_parser_flag = b ∧
    ((member_call.set_type_instance_from i b).after l).get_token = l.get_token ∧
    ((member_call.set_type_instance_from i b).after l).get_expression_type
      = l.get_expression_type ∧
    ((member_call.set_type_instance_from i b).after l).get_value = l.get_value :=
  ⟨rfl, rfl, rfl, rfl, rfl, rfl, rfl, rfl, rfl, rfl⟩

/-! ## Fresh literals, literal routing and identifiers in the float cast -/

theorem avl_cast_literal_scan (R : registry) (H : handlers) (l : literal_expression)
    (ret_instance : type_instance) :
    avl_cast R H [.literal l] ret_instance
      = (candidate_scan l.get_type_instance (.failure (.invalid_call cast_unsupported))
          [(R.int_instance, routing.int_cast), (R.dec_instance, routing.dec_cast),
           (R.float_instance, routing.float_cast)]).run H [.literal l] ret_instance := by
  simp only [avl_cast, candidate_scan]
  split <;> [rfl; (split <;> [rfl; (split <;> rfl)])]

theorem avl_string_cast_literal_scan (R : registry) (H : handlers) (l : literal_expression)
    (ret_instance : type_instance) :
    avl_string_cast R H [.literal l]
      = (candidate_scan l.get_type_instance (.failure (.invalid_call string_unsupported))
          [(R.int_instance, routing.int_string), (R.dec_instance, routing.dec_string),
           (R.float_instance, routing.float_string)]).run H [.literal l] ret_instance := by
  simp only [avl_string_cast, candidate_scan]
  split <;> [rfl; (split <;> [rfl; (split <;> rfl)])]

theorem avl_float_cast_literal_scan (R : registry) (H : handlers) (l : literal_expression)
    (ret_instance : type_instance) :
    avl_float_cast R H [.literal l]
      = (candidate_scan l.get_type_instance (.failure (.invalid_call float_unsupported))
          [(R.int_instance, routing.int_float),
           (R.dec_instance, routing.failure (.invalid_call float_unsupported))]).run
          H [.literal l] ret_instance := by
  simp only [avl_float_cast, candidate_scan]
  split <;> [rfl; (split <;> rfl)]

/-- C22: literal routing ignores the kind tag and the text.  For each of `avl_cast`,
`avl_string_cast` and `avl_float_cast` and any two literals whose type instances are
strongly equal, one routing outcome, the same handler or the same failure, accounts
for both single-literal invocations, whatever the kind tags, the texts, the handlers
and the target type are.  A `STRING_EXPR` literal that carries the int instance is
routed by `avl_cast` to `int_cast`, as an `INTEGER_EXPR` literal is. -/
theorem literal_routing_ignores_kind_and_text (R : registry) (l1 l2 : literal_expression)
    (hty : type_instance_strong_compare l1.get_type_instance l2.get_type_instance = true) :
    (∃ r : routing, ∀ (H : handlers) (ret_instance : type_instance),
      avl_cast R H [.literal l1] ret_instance = r.run H [.literal l1] ret_instance ∧
      avl_cast R H [.literal l2] ret_instance = r.run H [.literal l2] ret_instance) ∧
    (∃ r : routing, ∀ (H : handlers) (ret_instance : type_instance),
      avl_string_cast R H [.literal l1] = r.run H [.literal l1] ret_instance ∧
      avl_string_cast R H [.literal l2] = r.run H [.literal l2] ret_instance) ∧
    (∃ r : routing, ∀ (H : handlers) (ret_instance : type_instance),
      avl_float_cast R H [.literal l1] = r.run H [.literal l1] ret_instance ∧
      avl_float_cast R H [.literal l2] = r.run H [.literal l2] ret_instance) ∧
    (∀ (tok : token) (val : String) (H : handlers) (ret_instance : type_instance),
      avl_cast builtin_registry H
        [.literal ((literal_expression.new tok STRING_EXPR val).set_type_instance
          builtin_registry.int_instance)] ret_instance
      = H.int_cast
        [.literal ((literal_expression.new tok STRING_EXPR val).set_type_instance
          builtin_registry.int_instance)] ret_instance) := by
  have heq : l1.get_type_instance = l2.get_type_instance := (strong_compare_iff _ _).1 hty
  refine ⟨⟨_, fun H ret => ⟨avl_cast_literal_scan R H l1 ret, ?_⟩⟩,
    ⟨_, fun H ret => ⟨avl_string_cast_literal_scan R H l1 ret, ?_⟩⟩,
    ⟨_, fun H ret => ⟨avl_float_cast_literal_scan R H l1 ret, ?_⟩⟩, ?_⟩
  · rw [heq]; exact avl_cast_literal_scan R H l2 ret
  · rw [heq]; exact avl_string_cast_literal_scan R H l2 ret
  · rw [heq]; exact avl_float_cast_literal_scan R H l2 ret
  · intro tok val H ret
    rfl

/-- Witness of C22 on an `INTEGER_EXPR` literal "7" and a `STRING_EXPR` literal "x"
that both carry the int instance. -/
theorem literal_routing_ignores_kind_and_text_witness :
    ∃ r : routing, ∀ (H : handlers) (ret_instance : type_instance),
      avl_cast builtin_registry H
        [.literal ((literal_expression.new sample_token INTEGER_EXPR "7").set_type_instance
          builtin_registry.int_instance)] ret_instance
        = r.run H
          [.literal ((literal_expression.new sample_token INTEGER_EXPR "7").set_type_instance
            builtin_registry.int_instance)] ret_instance ∧
      avl_cast builtin_registry H
        [.literal ((literal_expression.new sample_token STRING_EXPR "x").set_type_instance
          builtin_registry.int_instance)] ret_instance
        = r.run H
          [.literal ((literal_expression.new sample_token STRING_EXPR "x").set_type_instance
            builtin_registry.int_instance)] ret_instance :=
  (literal_routing_ignores_kind_and_text builtin_registry
    ((literal_expression.new sample_token INTEGER_EXPR "7").set_type_instance
      builtin_registry.int_instance)
    ((literal_expression.new sample_token STRING_EXPR "x").set_type_instance
      builtin_registry.int_instance) rfl).1

/-- C23: `avl_float_cast` throws `invalid_call` on every list of exactly one identifier
reference, for every registry, every handler table and every type instance of the
identifier, the bool instance included: no registry instance takes part in the
result.  `avl_cast` and `avl_string_cast` accept the identifier of bool type that
`avl_float_cast` rejects. -/
theorem avl_float_cast_rejects_identifiers (R : registry) (H : handlers)
    (e : identifier_expression) :
    avl_float_cast R H [.identifier e] = .error (.invalid_call float_unsupported) ∧
    avl_float_cast R H [.identifier ⟨e.m_tok, R.bool_instance⟩]
      = .error (.invalid_call float_unsupported) ∧
    (∀ ret_instance : type_instance,
      avl_cast R H [.identifier ⟨e.m_tok, R.bool_instance⟩] ret_instance
        = H.bool_cast [.identifier ⟨e.m_tok, R.bool_instance⟩] ret_instance) ∧
    avl_string_cast R H [.identifier ⟨e.m_tok, R.bool_instance⟩]
      = H.bool_string [.identifier ⟨e.m_tok, R.bool_instance⟩] := by
  refine ⟨rfl, rfl, fun ret => ?_, ?_⟩
  · simp [avl_cast, identifier_expression.get_type_instance, strong_compare_refl]
  · simp [avl_string_cast, identifier_expression.get_type_instance, strong_compare_refl]

end avalon
